import Mathlib

/-!
Shallow embedding of the wave-type-tool core (grid layout, spatial phase,
transform pipeline, spatial hash, collision detector/resolver) and proofs
about the specified properties.

Real-valued JS arithmetic is embedded over `ℝ`; the non-goal of bit-identical
floating point lets us read every `Math.*` operation as its exact real
counterpart.  Discrete bookkeeping (grid indices, hash cells, state tables)
is embedded with `ℕ`, `ℤ` and association lists mirroring JS `Map`/`Set`.
-/

noncomputable section

namespace WaveType

/-! ### JS value semantics helpers -/

/-- JS `a || b` on numbers: `0` (and only `0`, for real inputs) is falsy. -/
def jsOr (a b : ℝ) : ℝ := if a = 0 then b else a

/-- JS `a || b` on strings: the empty string is falsy. -/
def jsOrS (a b : String) : String := if a = "" then b else a

/-! ### Animation curves — `CURVES` in `config.js` -/

/-- `sine: (t) => (Math.sin(t) + 1) / 2` -/
def sineCurve (t : ℝ) : ℝ := (Real.sin t + 1) / 2

/-- `doubleSinusoid`: primary sine plus a `0.3`-weighted sine at `2.3×` frequency. -/
def doubleSinusoidCurve (t : ℝ) : ℝ :=
  (Real.sin t + Real.sin (t * 2.3) * 0.3 + 1) / 2

/-- `bounce`: `Math.abs(Math.sin(x * Math.PI * 2.5)) * x` with `x = (sin t + 1)/2`. -/
def bounceCurve (t : ℝ) : ℝ :=
  let x := (Real.sin t + 1) / 2
  |Real.sin (x * Real.pi * 2.5)| * x

/-- `elastic`: `Math.pow(2, -10 x) * Math.sin((x*10 - 0.75) * (2π/3)) + 1`
with `x = (sin t + 1)/2`. -/
def elasticCurve (t : ℝ) : ℝ :=
  let x := (Real.sin t + 1) / 2
  (2 : ℝ) ^ (-10 * x) * Real.sin ((x * 10 - 0.75) * (2 * Real.pi / 3)) + 1

/-- `snap: (t) => Math.sin(t) > 0 ? 1 : 0` -/
def snapCurve (t : ℝ) : ℝ := if Real.sin t > 0 then 1 else 0

/-- `smooth`: quadratic ease-in-out of `x = (sin t + 1)/2`. -/
def smoothCurve (t : ℝ) : ℝ :=
  let x := (Real.sin t + 1) / 2
  if x < 0.5 then 2 * x * x else 1 - (-2 * x + 2) ^ 2 / 2

/-- `noise: (t, intensity = 0.3)`: pseudo-random from a sine hash, blended
toward the `0.5` center by `intensity`. -/
def noiseCurve (t : ℝ) (intensity : ℝ) : ℝ :=
  let n := Real.sin (t * 5.9898 + t * 38.233) * 43758.5453
  let raw := n - (⌊n⌋ : ℝ)
  0.5 + (raw - 0.5) * intensity

/-- `CURVES[name]` applied to a single argument, with the JS
`CURVES[name] || CURVES.sine` fallback; `noise` called with one argument
uses its default intensity `0.3`. -/
def curveAt (name : String) (t : ℝ) : ℝ :=
  if name = "sine" then sineCurve t
  else if name = "doubleSinusoid" then doubleSinusoidCurve t
  else if name = "bounce" then bounceCurve t
  else if name = "elastic" then elasticCurve t
  else if name = "snap" then snapCurve t
  else if name = "smooth" then smoothCurve t
  else if name = "noise" then noiseCurve t 0.3
  else sineCurve t

/-! ### Easing functions — `EASINGS` in `config.js`
JS `--t` pre-decrements, so `(--t) * t * t + 1` reads as `(t-1)^3 + 1`. -/

/-- `EASINGS[name]` with the `EASINGS[name] || EASINGS.linear` fallback. -/
def easingAt (name : String) (t : ℝ) : ℝ :=
  if name = "linear" then t
  else if name = "easeIn" then t * t
  else if name = "easeOut" then t * (2 - t)
  else if name = "easeInOut" then (if t < 0.5 then 2 * t * t else -1 + (4 - 2 * t) * t)
  else if name = "easeInQuad" then t * t
  else if name = "easeOutQuad" then t * (2 - t)
  else if name = "easeInOutQuad" then (if t < 0.5 then 2 * t * t else -1 + (4 - 2 * t) * t)
  else if name = "easeInCubic" then t * t * t
  else if name = "easeOutCubic" then (t - 1) * (t - 1) * (t - 1) + 1
  else if name = "easeInOutCubic" then
    (if t < 0.5 then 4 * t * t * t else (t - 1) * (2 * t - 2) * (2 * t - 2) + 1)
  else if name = "easeInQuart" then t * t * t * t
  else if name = "easeOutQuart" then 1 - (t - 1) * (t - 1) * (t - 1) * (t - 1)
  else if name = "easeInOutQuart" then
    (if t < 0.5 then 8 * t * t * t * t else 1 - 8 * (t - 1) * (t - 1) * (t - 1) * (t - 1))
  else t

/-! ### Data model -/

/-- Computed transform — the object literal returned by `applyTransforms`.
JS objects may carry further keys; the renderer and exporters read a
`rotation` key from it, so the embedding models that key as optional.
`applyTransforms` returns `{ x, y, scale, opacity }`, i.e. no rotation key. -/
structure Transform where
  x : ℝ
  y : ℝ
  scale : ℝ
  opacity : ℝ
  rotation : Option ℝ := none

/-- Grid item as produced by `createGrid` in `main.js`; `spatialPhase` and
`transformed` are the mutable per-frame slots, absent until populated. -/
structure GridItem where
  char : String
  x : ℝ
  y : ℝ
  row : ℕ
  col : ℕ
  totalRows : ℕ
  totalCols : ℕ
  cellWidth : ℝ
  cellHeight : ℝ
  spatialPhase : Option ℝ := none
  transformed : Option Transform := none

/-- Parameter snapshot (`PARAMS` in `config.js`), restricted to the fields
the embedded core reads. -/
structure Params where
  fontSize : ℝ
  columns : ℕ
  rows : ℕ
  tracking : ℝ
  lineSpacing : ℝ
  textDistribution : String
  waveCycles : ℝ
  sequencePattern : String
  linearDirection : String
  spiralDensity : ℝ
  globalSpeed : ℝ
  scaleEnabled : Bool
  scaleMin : ℝ
  scaleMax : ℝ
  scaleCurve : String
  positionEnabled : Bool
  positionMode : String
  positionOrigin : String
  positionAmplitudeX : ℝ
  positionAmplitudeY : ℝ
  positionFrequency : ℝ
  positionCurve : String
  positionNoiseIntensity : ℝ
  positionEasing : String
  containToCell : Bool
  opacityEnabled : Bool
  opacityMin : ℝ
  opacityMax : ℝ
  opacityCurve : String
  jitterEnabled : Bool
  jitterAmount : ℝ
  jitterSpeed : ℝ
  rowPhaseOffset : ℝ
  colPhaseOffset : ℝ
  wallBounce : Bool
  collisionDuration : ℝ
  collisionStrength : ℝ

/-! ### Spatial phase — `getSpatialPhase` in `transforms/index.js` -/

/-- JS truncated division core: `Math.trunc`. -/
def jsTrunc (x : ℝ) : ℤ := if 0 ≤ x then ⌊x⌋ else ⌈x⌉

/-- JS `%` remainder (truncated, sign of the dividend). -/
def jsMod (a b : ℝ) : ℝ := a - b * (jsTrunc (a / b) : ℝ)

/-- `Math.atan2(y, x)`. -/
def atan2 (y x : ℝ) : ℝ :=
  if 0 < x then Real.arctan (y / x)
  else if x < 0 then
    (if 0 ≤ y then Real.arctan (y / x) + Real.pi else Real.arctan (y / x) - Real.pi)
  else if 0 < y then Real.pi / 2
  else if y < 0 then -(Real.pi / 2)
  else 0

/-- `getSpatialPhase(item, params)`: grid coordinates to phase radians.
`x || 1` denominators and `x || 0` offsets are rendered with `jsOr`. -/
def getSpatialPhase (item : GridItem) (params : Params) : ℝ :=
  let row : ℝ := (item.row : ℝ)
  let col : ℝ := (item.col : ℝ)
  let totalRows : ℝ := (item.totalRows : ℝ)
  let totalCols : ℝ := (item.totalCols : ℝ)
  let normalizedPosition : ℝ :=
    if params.sequencePattern = "linear" then
      if params.linearDirection = "vertical" then row / jsOr (totalRows - 1) 1
      else if params.linearDirection = "diagonal" then
        (row + col) / jsOr ((totalRows - 1) + (totalCols - 1)) 1
      else col / jsOr (totalCols - 1) 1
    else if params.sequencePattern = "centerOut" then
      let centerRow := (totalRows - 1) / 2
      let centerCol := (totalCols - 1) / 2
      let maxDist := jsOr (Real.sqrt (centerRow * centerRow + centerCol * centerCol)) 1
      if params.linearDirection = "horizontal" then |col - centerCol| / jsOr centerCol 1
      else if params.linearDirection = "vertical" then |row - centerRow| / jsOr centerRow 1
      else Real.sqrt ((row - centerRow) ^ 2 + (col - centerCol) ^ 2) / maxDist
    else if params.sequencePattern = "wave" then
      if params.linearDirection = "vertical" then row / jsOr (totalRows - 1) 1
      else if params.linearDirection = "diagonal" then
        (row + col) / jsOr ((totalRows - 1) + (totalCols - 1)) 1
      else col / jsOr (totalCols - 1) 1
    else if params.sequencePattern = "spiral" then
      let centerRow := (totalRows - 1) / 2
      let centerCol := (totalCols - 1) / 2
      let angle := atan2 (row - centerRow) (col - centerCol)
      let maxRadius := jsOr (Real.sqrt (centerRow * centerRow + centerCol * centerCol)) 1
      let radius := Real.sqrt ((col - centerCol) ^ 2 + (row - centerRow) ^ 2)
      let normalizedAngle := (angle / Real.pi + 1) / 2
      let normalizedRadius := radius / maxRadius
      jsMod (normalizedAngle + normalizedRadius * params.spiralDensity * 0.5) 1
    else if params.sequencePattern = "random" then
      let seed := row * 127.1 + col * 311.7
      let random := Real.sin seed * 43758.5453
      random - (⌊random⌋ : ℝ)
    else col / jsOr (totalCols - 1) 1
  let rowOffset := row / jsOr (totalRows - 1) 1 * jsOr params.rowPhaseOffset 0
  let colOffset := col / jsOr (totalCols - 1) 1 * jsOr params.colPhaseOffset 0
  (normalizedPosition + rowOffset + colOffset) * params.waveCycles * 2 * Real.pi

/-! ### Transform pipeline — `applyTransforms` in `transforms/index.js` -/

/-- Fallback pseudo-noise (`noise` helper; no external p5 noise provider). -/
def jsNoise (x y z : ℝ) : ℝ :=
  let n := Real.sin (x * 12.9898 + y * 78.233 + z * 37.719) * 43758.5453
  n - (⌊n⌋ : ℝ)

/-- Scale channel block of `applyTransforms`. -/
def scaleChannel (params : Params) (tPhase : ℝ) : ℝ :=
  if params.scaleEnabled then
    max 0.01
      (params.scaleMin + curveAt params.scaleCurve tPhase * (params.scaleMax - params.scaleMin))
  else 1

/-- Position channel block of `applyTransforms`; returns `(offsetX, offsetY)`. -/
def positionChannel (item : GridItem) (params : Params) (t spatialPhase : ℝ) : ℝ × ℝ :=
  if params.positionEnabled then
    let easing := easingAt params.positionEasing
    let frequency := jsOr params.positionFrequency 1
    let tWithPhase := t + spatialPhase
    let normalizedTime := (Real.sin tWithPhase + 1) / 2
    let easedTime := easing normalizedTime
    let easedT := (easedTime * 2 - 1) * Real.pi
    let normalizedX :=
      if params.positionCurve = "noise" then noiseCurve easedT params.positionNoiseIntensity
      else curveAt params.positionCurve easedT
    let waveX := normalizedX * 2 - 1
    let tY := tWithPhase * frequency
    let normalizedTimeY := (Real.sin tY + 1) / 2
    let easedTimeY := easing normalizedTimeY
    let easedTY := (easedTimeY * 2 - 1) * Real.pi
    let normalizedY :=
      if params.positionCurve = "noise" then noiseCurve easedTY params.positionNoiseIntensity
      else curveAt params.positionCurve easedTY
    let waveY := normalizedY * 2 - 1
    let canvasWidth := (item.totalCols : ℝ) * item.cellWidth
    let canvasHeight := (item.totalRows : ℝ) * item.cellHeight
    let centerX := canvasWidth / 2
    let centerY := canvasHeight / 2
    let amplitudeMultiplier :=
      if params.positionOrigin ≠ "off" then
        let distFromCenterX := (item.x - centerX) / centerX
        let distFromCenterY := (item.y - centerY) / centerY
        let distFromCenter :=
          Real.sqrt (distFromCenterX * distFromCenterX + distFromCenterY * distFromCenterY)
        let normalizedDist := min (distFromCenter / Real.sqrt 2) 1
        let m :=
          if params.positionOrigin = "center" then normalizedDist
          else if params.positionOrigin = "edges" then 1 - normalizedDist
          else if params.positionOrigin = "side0to1" then item.x / canvasWidth
          else if params.positionOrigin = "side1to0" then 1 - item.x / canvasWidth
          else 1
        easing m
      else 1
    let containOk := params.containToCell ∧ item.cellWidth ≠ 0 ∧ item.cellHeight ≠ 0
    if params.positionMode = "travel" then
      let amplitudeX := params.positionAmplitudeX / 100 * canvasWidth * amplitudeMultiplier
      let amplitudeY := params.positionAmplitudeY / 100 * canvasHeight * amplitudeMultiplier
      let amplitudeX :=
        if containOk then min amplitudeX (max 0 (item.cellWidth / 2 - params.fontSize / 2))
        else amplitudeX
      let amplitudeY :=
        if containOk then min amplitudeY (max 0 (item.cellHeight / 2 - params.fontSize / 2))
        else amplitudeY
      (waveX * amplitudeX, waveY * amplitudeY)
    else
      let amplitudeX := params.positionAmplitudeX * amplitudeMultiplier
      let amplitudeY := params.positionAmplitudeY * amplitudeMultiplier
      let amplitudeX :=
        if containOk then min amplitudeX (max 0 (item.cellWidth / 2 - params.fontSize / 2))
        else amplitudeX
      let amplitudeY :=
        if containOk then min amplitudeY (max 0 (item.cellHeight / 2 - params.fontSize / 2))
        else amplitudeY
      (waveX * amplitudeX, waveY * amplitudeY)
  else (0, 0)

/-- Opacity channel block of `applyTransforms`. -/
def opacityChannel (params : Params) (tPhase : ℝ) : ℝ :=
  if params.opacityEnabled then
    max 0 (min 1
      (params.opacityMin + curveAt params.opacityCurve tPhase * (params.opacityMax - params.opacityMin)))
  else 1

/-- Jitter channel block of `applyTransforms`; uses only the global time and
the item's grid coordinates. -/
def jitterChannel (item : GridItem) (params : Params) (time : ℝ) : ℝ × ℝ :=
  if params.jitterEnabled then
    let jitterTime := time * params.jitterSpeed * 0.01
    let noiseX := jsNoise ((item.col : ℝ) * 0.5) ((item.row : ℝ) * 0.5) jitterTime
    let noiseY := jsNoise ((item.col : ℝ) * 0.5 + 100) ((item.row : ℝ) * 0.5 + 100) jitterTime
    ((noiseX * 2 - 1) * params.jitterAmount, (noiseY * 2 - 1) * params.jitterAmount)
  else (0, 0)

/-- `applyTransforms(item, index, time, params)` with no p5 noise provider.
The `index` argument is accepted but, as in the source, never read. -/
def applyTransforms (item : GridItem) (index : ℕ) (time : ℝ) (params : Params) : Transform :=
  let _ := index
  let spatialPhase := item.spatialPhase.getD (getSpatialPhase item params)
  let t := time * 0.05 * params.globalSpeed
  let scale := scaleChannel params (t + spatialPhase)
  let posOff := positionChannel item params t spatialPhase
  let opacity := opacityChannel params (t + spatialPhase)
  let jit := jitterChannel item params time
  { x := item.x + (posOff.1 + jit.1)
    y := item.y + (posOff.2 + jit.2)
    scale := scale
    opacity := opacity
    rotation := none }

/-- Renderer-side read of the rotation component (`main.js`): the missing
`rotation` key reads as `undefined`, fails `isFinite`, and is reset to `0`. -/
def renderedRotation (tr : Transform) : ℝ :=
  match tr.rotation with
  | some r => r
  | none => 0

/-! ### Layout generator — `createGrid` in `main.js`
The JS loop increments `charIndex` once per visited cell whether or not an
item is pushed, so the index consumed at cell `(row, col)` is always
`row * columns + col`; the embedding uses that closed form directly. -/

/-- The character the distribution mode assigns to cell `(row, col)`;
`""` plays the role of the falsy JS values (`''` and `undefined`). -/
def cellChar (chars : List String) (params : Params) (row col : ℕ) : String :=
  let charIndex := row * params.columns + col
  if params.textDistribution = "split-letter" then chars.getD charIndex ""
  else if params.textDistribution = "split-word" then
    (if col = 0 ∧ row < chars.length then chars.getD row "" else "")
  else
    (if chars.length = 0 then "" else chars.getD (charIndex % chars.length) "")

/-- The item the loop body pushes for cell `(row, col)`, if any: an item is
pushed only when its character is truthy, i.e. a non-empty string. -/
def cellItem (chars : List String) (params : Params) (width height : ℝ) (row col : ℕ) :
    Option GridItem :=
  let cellWidth := width / (params.columns : ℝ)
  let cellHeight := height / (params.rows : ℝ)
  let ch := cellChar chars params row col
  if ch = "" then none
  else some
    { char := ch
      x := (col : ℝ) * cellWidth + cellWidth / 2 + params.tracking
      y := (row : ℝ) * cellHeight + cellHeight / 2 + params.lineSpacing
      row := row
      col := col
      totalRows := params.rows
      totalCols := params.columns
      cellWidth := cellWidth
      cellHeight := cellHeight }

/-- `createGrid(chars, params, width, height)`: the row-major double loop. -/
def createGrid (chars : List String) (params : Params) (width height : ℝ) : List GridItem :=
  (List.range params.rows).flatMap fun row =>
    (List.range params.columns).filterMap fun col =>
      cellItem chars params width height row col

/-! ### Spatial hash — `SpatialHash.js`
The hash is generic over an ordered field with a floor so that the same
definitions serve the real-valued pipeline and concrete rational instances.
JS string keys `"col,row"` become `ℤ × ℤ` pairs; the `Map` of `Set`s becomes
an association list of duplicate-free index lists. -/

section Hash

variable {α : Type} [LinearOrderedField α] [FloorRing α]

/-- State of a `SpatialHash` instance. `cols`/`rows` are set by the
constructor and never read by `insert`/`query`. -/
structure SpatialHash (α : Type) where
  cellSize : α
  canvasWidth : α
  canvasHeight : α
  cols : ℤ
  rows : ℤ
  cells : List ((ℤ × ℤ) × List ℕ)

/-- `new SpatialHash(cellSize, canvasWidth, canvasHeight)`. -/
def SpatialHash.create (cellSize canvasWidth canvasHeight : α) : SpatialHash α :=
  { cellSize := cellSize
    canvasWidth := canvasWidth
    canvasHeight := canvasHeight
    cols := ⌈canvasWidth / cellSize⌉
    rows := ⌈canvasHeight / cellSize⌉
    cells := [] }

/-- The inclusive integer interval `[a, b]` as a list. -/
def intRange (a b : ℤ) : List ℤ :=
  (List.range (b + 1 - a).toNat).map fun (k : ℕ) => a + (k : ℤ)

/-- `getCellKeys(x, y, radius)`: all cell keys in the floor range of the
bounding box of the circle. -/
def getCellKeys (cellSize x y radius : α) : List (ℤ × ℤ) :=
  let minCol := ⌊(x - radius) / cellSize⌋
  let maxCol := ⌊(x + radius) / cellSize⌋
  let minRow := ⌊(y - radius) / cellSize⌋
  let maxRow := ⌊(y + radius) / cellSize⌋
  (intRange minCol maxCol).flatMap fun c => (intRange minRow maxRow).map fun r => (c, r)

/-- Look up a cell's index set (`this.cells.get(key)`). -/
def cellGet (cells : List ((ℤ × ℤ) × List ℕ)) (k : ℤ × ℤ) : Option (List ℕ) :=
  (cells.find? fun kv => kv.1 == k).map (·.2)

/-- Add an index to a cell's set, creating the cell if absent
(`Map.set` + `Set.add`). -/
def cellAdd (cells : List ((ℤ × ℤ) × List ℕ)) (k : ℤ × ℤ) (index : ℕ) :
    List ((ℤ × ℤ) × List ℕ) :=
  match cells with
  | [] => [(k, [index])]
  | kv :: rest =>
    if kv.1 = k then (kv.1, if index ∈ kv.2 then kv.2 else kv.2 ++ [index]) :: rest
    else kv :: cellAdd rest k index

/-- `insert(index, x, y, radius)`. -/
def SpatialHash.insert (h : SpatialHash α) (index : ℕ) (x y radius : α) : SpatialHash α :=
  { h with cells := (getCellKeys h.cellSize x y radius).foldl (fun cs k => cellAdd cs k index) h.cells }

/-- `query(x, y, radius)`: union of the index sets of all keyed cells in the
bounding-box floor range; the JS candidate `Set` is modelled by `dedup`. -/
def SpatialHash.query (h : SpatialHash α) (x y radius : α) : List ℕ :=
  ((getCellKeys h.cellSize x y radius).flatMap fun k => (cellGet h.cells k).getD []).dedup

/-- `clear()`. -/
def SpatialHash.clear (h : SpatialHash α) : SpatialHash α := { h with cells := [] }

/-- A whole detection-pass rebuild: `clear()` followed by a sequence of
`insert(index, x, y, radius)` calls. -/
def SpatialHash.insertAll (h : SpatialHash α) (l : List (ℕ × α × α × α)) : SpatialHash α :=
  l.foldl (fun h e => h.insert e.1 e.2.1 e.2.2.1 e.2.2.2) h.clear

end Hash

/-! ### Collision detector — `CollisionDetector` in `SpatialHash.js` -/

/-- A collision record as emitted by the detector. `indexB` is an item index
for item-item records and a wall name string for wall records. -/
structure Collision where
  ctype : String
  indexA : ℕ
  indexB : ℕ ⊕ String
  normal : ℝ × ℝ
  penetration : ℝ
  contactPoint : ℝ × ℝ

/-- `item.transformed?.scale || 1`. -/
def transformedScaleOr1 (tr : Option Transform) : ℝ :=
  match tr with
  | none => 1
  | some t => jsOr t.scale 1

/-- `getItemRadius(item, params) = fontSize * 0.45 * (transformed scale or 1)`. -/
def getItemRadius (item : GridItem) (params : Params) : ℝ :=
  params.fontSize * 0.45 * transformedScaleOr1 item.transformed

/-- `checkCircleCollision(itemA, itemB, indexA, indexB, params)`; callers
guarantee both items carry a transformed position. -/
def checkCircleCollision (itemA itemB : GridItem) (indexA indexB : ℕ) (params : Params) :
    Option Collision :=
  match itemA.transformed, itemB.transformed with
  | some posA, some posB =>
    let radiusA := getItemRadius itemA params
    let radiusB := getItemRadius itemB params
    let dx := posB.x - posA.x
    let dy := posB.y - posA.y
    let distSq := dx * dx + dy * dy
    let minDist := radiusA + radiusB
    if distSq < minDist * minDist ∧ 0 < distSq then
      let dist := Real.sqrt distSq
      some
        { ctype := "item"
          indexA := indexA
          indexB := Sum.inl indexB
          normal := (dx / dist, dy / dist)
          penetration := minDist - dist
          contactPoint := (posA.x + dx / dist * radiusA, posA.y + dy / dist * radiusA) }
    else none
  | _, _ => none

/-- `checkWallCollisions(item, index, params, canvasWidth, canvasHeight)`. -/
def checkWallCollisions (item : GridItem) (index : ℕ) (params : Params)
    (canvasWidth canvasHeight : ℝ) : List Collision :=
  match item.transformed with
  | none => []
  | some pos =>
    let radius := getItemRadius item params
    (if pos.x - radius < 0 then
      [{ ctype := "wall", indexA := index, indexB := Sum.inr "left", normal := (1, 0),
         penetration := radius - pos.x, contactPoint := (0, pos.y) }] else []) ++
    (if canvasWidth < pos.x + radius then
      [{ ctype := "wall", indexA := index, indexB := Sum.inr "right", normal := (-1, 0),
         penetration := pos.x + radius - canvasWidth, contactPoint := (canvasWidth, pos.y) }] else []) ++
    (if pos.y - radius < 0 then
      [{ ctype := "wall", indexA := index, indexB := Sum.inr "top", normal := (0, 1),
         penetration := radius - pos.y, contactPoint := (pos.x, 0) }] else []) ++
    (if canvasHeight < pos.y + radius then
      [{ ctype := "wall", indexA := index, indexB := Sum.inr "bottom", normal := (0, -1),
         penetration := pos.y + radius - canvasHeight, contactPoint := (pos.x, canvasHeight) }] else [])

/-- The spatial-hash rebuild at the top of `detectCollisions`: a fresh hash
with cell size `fontSize * 3`, then every item with a transformed position
inserted at that position with its item radius. -/
def buildHash (items : List GridItem) (params : Params) (canvasWidth canvasHeight : ℝ) :
    SpatialHash ℝ :=
  items.enum.foldl
    (fun h p =>
      match p.2.transformed with
      | none => h
      | some tr => h.insert p.1 tr.x tr.y (getItemRadius p.2 params))
    (SpatialHash.create (params.fontSize * 3) canvasWidth canvasHeight)

/-- `detectCollisions(items, params, canvasWidth, canvasHeight)`. -/
def detectCollisions (items : List GridItem) (params : Params)
    (canvasWidth canvasHeight : ℝ) : List Collision :=
  let hash := buildHash items params canvasWidth canvasHeight
  items.enum.flatMap fun p =>
    match p.2.transformed with
    | none => []
    | some posA =>
      let radiusA := getItemRadius p.2 params
      let candidates := hash.query posA.x posA.y (radiusA * 2)
      let pairs := (candidates.filter fun j => p.1 < j).filterMap fun j =>
        (items.get? j).bind fun itemB => checkCircleCollision p.2 itemB p.1 j params
      let walls :=
        if params.wallBounce then checkWallCollisions p.2 p.1 params canvasWidth canvasHeight
        else []
      pairs ++ walls

/-! ### Collision resolver — `CollisionResolver` (`COLLISION_CURVES` and the
state machine). -/

/-- Bell-shaped sine response: `Math.sin(progress * Math.PI)`. -/
def collisionCurveSine (progress : ℝ) : ℝ := Real.sin (progress * Real.pi)

/-- Piecewise quadratic multi-bounce response. -/
def collisionCurveBounce (progress : ℝ) : ℝ :=
  let t := 1 - progress
  if t < 1 / 2.75 then 1 - 7.5625 * t * t
  else if t < 2 / 2.75 then
    let t2 := t - 1.5 / 2.75
    1 - (7.5625 * t2 * t2 + 0.75)
  else if t < 2.5 / 2.75 then
    let t2 := t - 2.25 / 2.75
    1 - (7.5625 * t2 * t2 + 0.9375)
  else
    let t2 := t - 2.625 / 2.75
    1 - (7.5625 * t2 * t2 + 0.984375)

/-- Overshoot-then-settle response. -/
def collisionCurveElastic (progress : ℝ) : ℝ :=
  if progress = 0 ∨ progress = 1 then 1 - progress
  else
    (2 : ℝ) ^ (-10 * progress) * Real.sin ((progress - 0.3 / 4) * (2 * Real.pi) / 0.3) +
      (1 - progress) * 0.5

/-- Instant deflection that fades. -/
def collisionCurveSnap (progress : ℝ) : ℝ :=
  if progress < 0.1 then 1 else max 0 (1 - (progress - 0.1) / 0.9)

/-- Bell curve (same formula as the sine response). -/
def collisionCurveSmooth (progress : ℝ) : ℝ := Real.sin (progress * Real.pi)

/-- Noise-modulated deflection. -/
def collisionCurveNoise (progress : ℝ) : ℝ :=
  max 0 (Real.sin (progress * Real.pi) + Real.sin (progress * 47.123) * 0.2)

/-- `COLLISION_CURVES[name] || COLLISION_CURVES.sine`. -/
def collisionCurveAt (name : String) (progress : ℝ) : ℝ :=
  if name = "sine" then collisionCurveSine progress
  else if name = "bounce" then collisionCurveBounce progress
  else if name = "elastic" then collisionCurveElastic progress
  else if name = "snap" then collisionCurveSnap progress
  else if name = "smooth" then collisionCurveSmooth progress
  else if name = "noise" then collisionCurveNoise progress
  else collisionCurveSine progress

/-- Per-item collision state (`CollisionState`). -/
structure CollisionState where
  active : Bool
  startTime : ℝ
  duration : ℝ
  normal : ℝ × ℝ
  penetration : ℝ
  strength : ℝ
  collidedWith : ℕ ⊕ String
  ctype : String

/-- The `Map` from item index to collision state, as an association list. -/
abbrev StateMap := List (ℕ × CollisionState)

/-- `Map.get(i)`. -/
def getState (m : StateMap) (i : ℕ) : Option CollisionState :=
  (m.find? fun kv => kv.1 == i).map (·.2)

/-- `Map.set(i, st)`: replace the existing entry for `i`, else append. -/
def setState (m : StateMap) (i : ℕ) (st : CollisionState) : StateMap :=
  match m with
  | [] => [(i, st)]
  | kv :: rest => if kv.1 = i then (i, st) :: rest else kv :: setState rest i st

/-- The fresh state written by `startCollisionResponse` for one impacted
item. -/
def freshState (normal : ℝ × ℝ) (other : ℕ ⊕ String) (pen : ℝ) (time : ℝ)
    (params : Params) (ctype : String) : CollisionState :=
  { active := true
    startTime := time
    duration := params.collisionDuration * 60
    normal := normal
    penetration := pen
    strength := params.collisionStrength
    collidedWith := other
    ctype := ctype }

/-- One of the two identical guarded-write blocks of
`startCollisionResponse`: write a fresh state for `idx` unless an active
state with at least as large a penetration is already stored. -/
def startHalf (m : StateMap) (idx : ℕ) (normal : ℝ × ℝ) (other : ℕ ⊕ String)
    (pen : ℝ) (time : ℝ) (params : Params) (ctype : String) : StateMap :=
  match getState m idx with
  | none => setState m idx (freshState normal other pen time params ctype)
  | some st =>
    if st.active = false ∨ st.penetration < pen then
      setState m idx (freshState normal other pen time params ctype)
    else m

/-- `startCollisionResponse(collision, items, time, params)`: the A block,
then — for item-item collisions — the mirrored B block with the negated
normal.  The JS reads `existingStateB` only after the `set` for item A has
run, so the B block operates on the intermediate map. -/
def startCollisionResponse (m : StateMap) (c : Collision) (time : ℝ) (params : Params) :
    StateMap :=
  let m1 := startHalf m c.indexA c.normal c.indexB c.penetration time params c.ctype
  if c.ctype = "item" then
    match c.indexB with
    | Sum.inl j =>
      startHalf m1 j (-c.normal.1, -c.normal.2) (Sum.inl c.indexA) c.penetration time
        params c.ctype
    | Sum.inr _ => m1
  else m1

/-- `resolveCollisions(collisions, items, time, params)`. -/
def resolveCollisions (m : StateMap) (cs : List Collision) (time : ℝ) (params : Params) :
    StateMap :=
  cs.foldl (fun m c => startCollisionResponse m c time params) m

/-- The state mutation performed by one iteration of
`updateCollisionResponses`: deactivate once `progress >= 1`. -/
def stepState (st : CollisionState) (time : ℝ) : CollisionState :=
  if st.active = false then st
  else
    let elapsed := time - st.startTime
    let progress := min (elapsed / st.duration) 1
    if 1 ≤ progress then { st with active := false } else st

/-- The `item.collisionOffset` written by one iteration of
`updateCollisionResponses`. -/
def stepOffset (state? : Option CollisionState) (time : ℝ) (params : Params) : ℝ × ℝ :=
  let curve := collisionCurveAt (jsOrS params.positionCurve "sine")
  match state? with
  | none => (0, 0)
  | some st =>
    if st.active = false then (0, 0)
    else
      let elapsed := time - st.startTime
      let progress := min (elapsed / st.duration) 1
      if 1 ≤ progress then (0, 0)
      else
        let curveValue := curve progress
        let baseDeflection := (st.penetration + params.fontSize * 0.3) * st.strength
        (st.normal.1 * baseDeflection * curveValue, st.normal.2 * baseDeflection * curveValue)

/-- `updateCollisionResponses(items, time, params)`: the loop touches, for
each item index `i < numItems`, exactly the state stored for `i` and that
item's collision offset. -/
def updateCollisionResponses (m : StateMap) (numItems : ℕ) (time : ℝ) (params : Params) :
    StateMap × List (ℝ × ℝ) :=
  (m.map fun kv => if kv.1 < numItems then (kv.1, stepState kv.2 time) else kv,
   (List.range numItems).map fun i => stepOffset (getState m i) time params)

/-! ### Spec-side definitions (used only to compare the code against the
spec's own wording). -/

/-- Spec-side denominator for the linear-pattern formula: `cols − 1`,
"replaced by 1 when the corresponding grid dimension is 1". -/
def specDenom (n : ℕ) : ℝ := if n = 1 then 1 else (n : ℝ) - 1

section HashSpec

variable {α : Type} [LinearOrderedField α] [FloorRing α]

/-- Spec reading of "cell overlapping the query circle": the closed square
of cell `k` meets the closed disc, tested via the nearest point of the
square to the centre. -/
def specCellCircleOverlap (s : α) (k : ℤ × ℤ) (qx qy qr : α) : Prop :=
  let nx := max ((k.1 : α) * s) (min qx (((k.1 : α) + 1) * s))
  let ny := max ((k.2 : α) * s) (min qy (((k.2 : α) + 1) * s))
  (qx - nx) ^ 2 + (qy - ny) ^ 2 ≤ qr ^ 2

/-- Spec-side candidate set, per the spec sentence "returns the union of all
items in cells overlapping the query circle". -/
def inSpecCircleUnion (h : SpatialHash α) (qx qy qr : α) (i : ℕ) : Prop :=
  ∃ kv ∈ h.cells, i ∈ kv.2 ∧ specCellCircleOverlap h.cellSize kv.1 qx qy qr

/-- Overlap of the half-open cell square
`[c·s, (c+1)·s) × [r·s, (r+1)·s)` with the closed axis-aligned box
`[lox, hix] × [loy, hiy]`. -/
def specCellBoxOverlap (s : α) (k : ℤ × ℤ) (lox hix loy hiy : α) : Prop :=
  (k.1 : α) * s ≤ hix ∧ lox < ((k.1 : α) + 1) * s ∧
  (k.2 : α) * s ≤ hiy ∧ loy < ((k.2 : α) + 1) * s

/-- Amended candidate set: items stored in cells overlapping the query
circle's bounding box. -/
def inSpecBoxUnion (h : SpatialHash α) (qx qy qr : α) (i : ℕ) : Prop :=
  ∃ kv ∈ h.cells, i ∈ kv.2 ∧
    specCellBoxOverlap h.cellSize kv.1 (qx - qr) (qx + qr) (qy - qr) (qy + qr)

instance (s : α) (k : ℤ × ℤ) (qx qy qr : α) :
    Decidable (specCellCircleOverlap s k qx qy qr) := by
  unfold specCellCircleOverlap
  infer_instance

instance (h : SpatialHash α) (qx qy qr : α) (i : ℕ) :
    Decidable (inSpecCircleUnion h qx qy qr i) := by
  unfold inSpecCircleUnion
  infer_instance

instance (s : α) (k : ℤ × ℤ) (lox hix loy hiy : α) :
    Decidable (specCellBoxOverlap s k lox hix loy hiy) := by
  unfold specCellBoxOverlap
  infer_instance

instance (h : SpatialHash α) (qx qy qr : α) (i : ℕ) :
    Decidable (inSpecBoxUnion h qx qy qr i) := by
  unfold inSpecBoxUnion
  infer_instance

end HashSpec

/-- A collision record for the unordered item pair `{i, j}` (either
orientation). -/
def isPairRecord (i j : ℕ) (r : Collision) : Prop :=
  r.ctype = "item" ∧
    ((r.indexA = i ∧ r.indexB = Sum.inl j) ∨ (r.indexA = j ∧ r.indexB = Sum.inl i))

instance (i j : ℕ) (r : Collision) : Decidable (isPairRecord i j r) := by
  unfold isPairRecord
  infer_instance

/-! ### Concrete sample values (used to instantiate theorems) -/

/-- A concrete parameter snapshot matching the `PARAMS` defaults. -/
def sampleParams : Params :=
  { fontSize := 36
    columns := 20
    rows := 12
    tracking := 0
    lineSpacing := 0
    textDistribution := "repeat"
    waveCycles := 2
    sequencePattern := "wave"
    linearDirection := "horizontal"
    spiralDensity := 2
    globalSpeed := 1
    scaleEnabled := true
    scaleMin := 0.3
    scaleMax := 1
    scaleCurve := "sine"
    positionEnabled := true
    positionMode := "oscillate"
    positionOrigin := "off"
    positionAmplitudeX := 20
    positionAmplitudeY := 0
    positionFrequency := 1
    positionCurve := "sine"
    positionNoiseIntensity := 0.3
    positionEasing := "linear"
    containToCell := false
    opacityEnabled := false
    opacityMin := 0.2
    opacityMax := 1
    opacityCurve := "sine"
    jitterEnabled := false
    jitterAmount := 10
    jitterSpeed := 0.5
    rowPhaseOffset := 0
    colPhaseOffset := 0
    wallBounce := false
    collisionDuration := 0.5
    collisionStrength := 1 }

/-- A concrete grid item. -/
def sampleItem : GridItem :=
  { char := "H"
    x := 5
    y := 5
    row := 0
    col := 0
    totalRows := 12
    totalCols := 20
    cellWidth := 10
    cellHeight := 10 }

/-- A concrete transformed position at the origin with scale `2/3`. -/
def c7PosA : Transform :=
  { x := 0, y := 0, scale := 2 / 3, opacity := 1 }

/-- A concrete transformed position at `(3, 4)` with scale `2/3`. -/
def c7PosB : Transform :=
  { x := 3, y := 4, scale := 2 / 3, opacity := 1 }

/-- A concrete grid item carrying `c7PosA`. -/
def c7ItemA : GridItem :=
  { sampleItem with transformed := some c7PosA }

/-- A concrete grid item carrying `c7PosB`. -/
def c7ItemB : GridItem :=
  { sampleItem with x := 3, y := 4, transformed := some c7PosB }

/-- The sample parameters with `fontSize = 10`, so each of the two items
above has radius `10 * 0.45 * (2/3) = 3`. -/
def c7Params : Params :=
  { sampleParams with fontSize := 10 }

/-! ## Theorems -/

/-! ### Helper lemmas -/

theorem jsOr_zero_right (x : ℝ) : jsOr x 0 = x := by
  unfold jsOr
  split
  · simp_all
  · rfl

theorem jsOr_natCast_sub_one {n : ℕ} (hn : 1 ≤ n) : jsOr ((n : ℝ) - 1) 1 = specDenom n := by
  unfold jsOr specDenom
  rcases eq_or_lt_of_le hn with h | h
  · simp [← h]
  · have h1 : (1 : ℝ) < (n : ℝ) := by exact_mod_cast h
    have h2 : (n : ℝ) - 1 ≠ 0 := by linarith
    have h3 : n ≠ 1 := by omega
    simp [h2, h3]

/-! ### C1 — scale positivity and opacity range of `applyTransforms` -/

/-- C1: for every item, index, finite time and parameter snapshot (including
pathological ranges `scaleMin > scaleMax`, `opacityMin > opacityMax`), the
transform produced by `applyTransforms` has scale strictly greater than `0`
— equal to `scaleMin + curve(t+phase)·(scaleMax−scaleMin)` floor-clamped to
the epsilon `0.01` when the scale channel is enabled and `1` when disabled —
and opacity within `[0, 1]`. -/
theorem c1_applyTransforms_scale_pos_opacity_range
    (item : GridItem) (index : ℕ) (time : ℝ) (params : Params) :
    0 < (applyTransforms item index time params).scale ∧
    (applyTransforms item index time params).scale =
      (if params.scaleEnabled then
        max 0.01 (params.scaleMin +
          curveAt params.scaleCurve
            (time * 0.05 * params.globalSpeed +
              item.spatialPhase.getD (getSpatialPhase item params)) *
            (params.scaleMax - params.scaleMin))
      else 1) ∧
    0 ≤ (applyTransforms item index time params).opacity ∧
    (applyTransforms item index time params).opacity ≤ 1 := by
  refine ⟨?_, rfl, ?_, ?_⟩
  · show 0 < scaleChannel params _
    unfold scaleChannel
    split
    · exact lt_of_lt_of_le (by norm_num) (le_max_left _ _)
    · norm_num
  · show 0 ≤ opacityChannel params _
    unfold opacityChannel
    split
    · exact le_max_left _ _
    · norm_num
  · show opacityChannel params _ ≤ 1
    unfold opacityChannel
    split
    · exact max_le (by norm_num) (min_le_left _ _)
    · norm_num

/-! ### C3 — the pipeline's transform carries no rotation component -/

/-- C3 counterexample: at a concrete item, index, time and parameter
snapshot, the computed transform returned by `applyTransforms` carries no
rotation field at all, contradicting the claim that it always carries a
rotation component equal to `curve(t+phase)·amplitude` in radians. -/
theorem c3_counterexample_no_rotation_field :
    (applyTransforms sampleItem 0 0 sampleParams).rotation = none := rfl

/-- C3 (amended): the per-item computed transform returned by the pipeline
contains no rotation field for any input; the renderer's sanitation reads
the missing field as rotation `0`, so every item is rendered unrotated
regardless of parameters. -/
theorem c3_applyTransforms_rotation_none
    (item : GridItem) (index : ℕ) (time : ℝ) (params : Params) :
    (applyTransforms item index time params).rotation = none ∧
    renderedRotation (applyTransforms item index time params) = 0 :=
  ⟨rfl, rfl⟩

/-! ### C4 — determinism / purity of `applyTransforms` -/

/-- C4: two invocations of `applyTransforms` with equal inputs (same base
position, grid coordinates, grid extents, cell size and spatial phase — the
display character, previous transformed slot and the unused `index` argument
may differ) return identical transforms; the result is a pure function of
those inputs and the parameter snapshot, with no dependence on wall-clock or
frame-counter state, so preview and export agree at the same logical time. -/
theorem c4_applyTransforms_deterministic
    (a b : GridItem) (i j : ℕ) (time : ℝ) (params : Params)
    (hx : a.x = b.x) (hy : a.y = b.y) (hrow : a.row = b.row) (hcol : a.col = b.col)
    (hR : a.totalRows = b.totalRows) (hC : a.totalCols = b.totalCols)
    (hcw : a.cellWidth = b.cellWidth) (hch : a.cellHeight = b.cellHeight)
    (hsp : a.spatialPhase = b.spatialPhase) :
    applyTransforms a i time params = applyTransforms b j time params := by
  cases a
  cases b
  simp only at hx hy hrow hcol hR hC hcw hch hsp
  subst hx hy hrow hcol hR hC hcw hch hsp
  rfl

/-- C4 witness: concrete items differing only in their display character and
transformed slot, at different indices, produce the same transform. -/
theorem c4_witness :
    applyTransforms sampleItem 0 7 sampleParams =
      applyTransforms
        { sampleItem with
            char := "Q"
            transformed := some { x := 0, y := 0, scale := 1, opacity := 1 } }
        1 7 sampleParams :=
  c4_applyTransforms_deterministic _ _ 0 1 7 sampleParams rfl rfl rfl rfl rfl rfl rfl rfl rfl

/-! ### C5 — linear/horizontal spatial phase formula -/

/-- C5: for a grid item under the linear pattern with horizontal direction
(grid dimensions at least 1), the spatial phase equals
`(col/(C−1) + (row/(R−1))·rowPhaseOffset + (col/(C−1))·colPhaseOffset)
 · waveCycles · 2π`, the denominators replaced by 1 when the corresponding
dimension is 1; with both phase offsets zero the item at `col = 0` has
phase exactly 0. -/
theorem c5_spatial_phase_linear_horizontal
    (item : GridItem) (params : Params)
    (hpat : params.sequencePattern = "linear")
    (hdir : params.linearDirection = "horizontal")
    (hR : 1 ≤ item.totalRows) (hC : 1 ≤ item.totalCols) :
    getSpatialPhase item params =
      ((item.col : ℝ) / specDenom item.totalCols +
        (item.row : ℝ) / specDenom item.totalRows * params.rowPhaseOffset +
        (item.col : ℝ) / specDenom item.totalCols * params.colPhaseOffset) *
        params.waveCycles * (2 * Real.pi) ∧
    (item.col = 0 → params.rowPhaseOffset = 0 → params.colPhaseOffset = 0 →
      getSpatialPhase item params = 0) := by
  have main : getSpatialPhase item params =
      ((item.col : ℝ) / specDenom item.totalCols +
        (item.row : ℝ) / specDenom item.totalRows * params.rowPhaseOffset +
        (item.col : ℝ) / specDenom item.totalCols * params.colPhaseOffset) *
        params.waveCycles * (2 * Real.pi) := by
    unfold getSpatialPhase
    rw [hpat, hdir]
    simp only [String.reduceEq, if_true, if_false, reduceIte]
    rw [jsOr_natCast_sub_one hR, jsOr_natCast_sub_one hC, jsOr_zero_right, jsOr_zero_right]
    ring
  refine ⟨main, fun hc0 hrpo hcpo => ?_⟩
  rw [main, hrpo, hcpo, hc0]
  push_cast
  ring

/-- C5 witness: concrete instantiation on a 2×3 grid at `(row, col) = (1, 2)`
and on the anchor column `col = 0`. -/
theorem c5_witness :
    (getSpatialPhase
        { sampleItem with row := 1, col := 2, totalRows := 2, totalCols := 3 }
        { sampleParams with sequencePattern := "linear", linearDirection := "horizontal" } =
      (((2 : ℕ) : ℝ) / specDenom 3 +
        ((1 : ℕ) : ℝ) / specDenom 2 * (0 : ℝ) +
        ((2 : ℕ) : ℝ) / specDenom 3 * (0 : ℝ)) * (2 : ℝ) * (2 * Real.pi)) ∧
    (getSpatialPhase
        { sampleItem with row := 1, col := 0, totalRows := 2, totalCols := 3 }
        { sampleParams with sequencePattern := "linear", linearDirection := "horizontal" } = 0) := by
  constructor
  · exact (c5_spatial_phase_linear_horizontal _ _ rfl rfl (by norm_num) (by norm_num)).1
  · exact (c5_spatial_phase_linear_horizontal _ _ rfl rfl (by norm_num) (by norm_num)).2
      rfl rfl rfl

/-! ### C2 — range of the animation-curve registry -/

/-- C2 counterexample: the registry's `doubleSinusoid` curve exceeds `1` at
phase `9π/2`, and its `elastic` curve exceeds `1` at phase `π/2`; so not
every named curve maps every real phase into `[0, 1]`. -/
theorem c2_counterexample :
    1 < doubleSinusoidCurve (9 * Real.pi / 2) ∧ 1 < elasticCurve (Real.pi / 2) := by
  constructor
  · have h1 : Real.sin (9 * Real.pi / 2) = 1 := by
      have h : 9 * Real.pi / 2 = Real.pi / 2 + (2 : ℕ) * (2 * Real.pi) := by push_cast; ring
      rw [h, Real.sin_add_nat_mul_two_pi, Real.sin_pi_div_two]
    have h2 : Real.sin (9 * Real.pi / 2 * 2.3) = Real.sin (7 * Real.pi / 20) := by
      have h : 9 * Real.pi / 2 * 2.3 = 7 * Real.pi / 20 + (5 : ℕ) * (2 * Real.pi) := by
        push_cast; ring
      rw [h, Real.sin_add_nat_mul_two_pi]
    have h3 : 0 < Real.sin (7 * Real.pi / 20) := by
      refine Real.sin_pos_of_pos_of_lt_pi (by positivity) ?_
      have := Real.pi_pos
      linarith
    unfold doubleSinusoidCurve
    rw [h1, h2]
    linarith
  · simp only [elasticCurve]
    rw [Real.sin_pi_div_two]
    have harg : (((1 : ℝ) + 1) / 2 * 10 - 0.75) * (2 * Real.pi / 3) =
        Real.pi / 6 + (3 : ℕ) * (2 * Real.pi) := by push_cast; ring
    rw [harg, Real.sin_add_nat_mul_two_pi, Real.sin_pi_div_six]
    have hpos : (0 : ℝ) < (2 : ℝ) ^ (-10 * (((1 : ℝ) + 1) / 2)) * (1 / 2) := by
      have := Real.rpow_pos_of_pos (show (0 : ℝ) < 2 by norm_num) (-10 * (((1 : ℝ) + 1) / 2))
      linarith
    linarith

/-- C2 (amended): of the registry's curves, `sine`, `bounce`, `snap`,
`smooth`, and `noise` (for intensity in `[0, 1]`) map every real phase into
`[0, 1]`; the `doubleSinusoid` and `elastic` curves are excluded, as each
can exceed `1`. -/
theorem c2_curve_ranges (t : ℝ) :
    (0 ≤ sineCurve t ∧ sineCurve t ≤ 1) ∧
    (0 ≤ bounceCurve t ∧ bounceCurve t ≤ 1) ∧
    (0 ≤ snapCurve t ∧ snapCurve t ≤ 1) ∧
    (0 ≤ smoothCurve t ∧ smoothCurve t ≤ 1) ∧
    (∀ intensity : ℝ, 0 ≤ intensity → intensity ≤ 1 →
      0 ≤ noiseCurve t intensity ∧ noiseCurve t intensity ≤ 1) := by
  have hs1 : -1 ≤ Real.sin t := Real.neg_one_le_sin t
  have hs2 : Real.sin t ≤ 1 := Real.sin_le_one t
  refine ⟨⟨?_, ?_⟩, ⟨?_, ?_⟩, ⟨?_, ?_⟩, ⟨?_, ?_⟩, ?_⟩
  · unfold sineCurve; linarith
  · unfold sineCurve; linarith
  · simp only [bounceCurve]
    exact mul_nonneg (abs_nonneg _) (by linarith)
  · simp only [bounceCurve]
    have ha : |Real.sin ((Real.sin t + 1) / 2 * Real.pi * 2.5)| ≤ 1 :=
      abs_le.mpr ⟨Real.neg_one_le_sin _, Real.sin_le_one _⟩
    nlinarith [abs_nonneg (Real.sin ((Real.sin t + 1) / 2 * Real.pi * 2.5))]
  · unfold snapCurve; split <;> norm_num
  · unfold snapCurve; split <;> norm_num
  · simp only [smoothCurve]
    split
    · nlinarith
    · nlinarith
  · simp only [smoothCurve]
    split
    · nlinarith
    · nlinarith
  · intro i hi0 hi1
    simp only [noiseCurve]
    set n : ℝ := Real.sin (t * 5.9898 + t * 38.233) * 43758.5453 with hn
    have h0 : 0 ≤ n - (⌊n⌋ : ℝ) := by
      have := Int.floor_le n
      linarith
    have h1 : n - (⌊n⌋ : ℝ) < 1 := by
      have := Int.lt_floor_add_one n
      linarith
    constructor
    · rcases le_total (n - (⌊n⌋ : ℝ) - 0.5) 0 with h | h
      · have hm : (n - (⌊n⌋ : ℝ) - 0.5) * 1 ≤ (n - (⌊n⌋ : ℝ) - 0.5) * i := by
          nlinarith
        nlinarith
      · nlinarith [mul_nonneg h hi0]
    · rcases le_total (n - (⌊n⌋ : ℝ) - 0.5) 0 with h | h
      · nlinarith [mul_nonneg (neg_nonneg.mpr h) hi0]
      · nlinarith [mul_le_mul_of_nonneg_left hi1 h]

/-- C2 witness: concrete instantiation of the amended range theorem at phase
`0` with noise intensity `1/2`. -/
theorem c2_witness :
    (0 ≤ sineCurve 0 ∧ sineCurve 0 ≤ 1) ∧
    (0 ≤ bounceCurve 0 ∧ bounceCurve 0 ≤ 1) ∧
    (0 ≤ snapCurve 0 ∧ snapCurve 0 ≤ 1) ∧
    (0 ≤ smoothCurve 0 ∧ smoothCurve 0 ≤ 1) ∧
    (0 ≤ noiseCurve 0 (1 / 2) ∧ noiseCurve 0 (1 / 2) ≤ 1) := by
  have h := c2_curve_ranges 0
  exact ⟨h.1, h.2.1, h.2.2.1, h.2.2.2.1, h.2.2.2.2 (1 / 2) (by norm_num) (by norm_num)⟩

/-! ### C6 — layout generator -/

theorem cellItem_eq_some_iff {chars : List String} {params : Params} {width height : ℝ}
    {row col : ℕ} {it : GridItem} :
    cellItem chars params width height row col = some it ↔
      cellChar chars params row col ≠ "" ∧
      it = { char := cellChar chars params row col
             x := (col : ℝ) * (width / (params.columns : ℝ)) +
               width / (params.columns : ℝ) / 2 + params.tracking
             y := (row : ℝ) * (height / (params.rows : ℝ)) +
               height / (params.rows : ℝ) / 2 + params.lineSpacing
             row := row
             col := col
             totalRows := params.rows
             totalCols := params.columns
             cellWidth := width / (params.columns : ℝ)
             cellHeight := height / (params.rows : ℝ) } := by
  simp only [cellItem]
  split_ifs with h
  · simp [h]
  · constructor
    · intro he
      exact ⟨h, (Option.some.inj he).symm⟩
    · rintro ⟨-, rfl⟩
      rfl

theorem cellItem_eq_none_iff {chars : List String} {params : Params} {width height : ℝ}
    {row col : ℕ} :
    cellItem chars params width height row col = none ↔
      cellChar chars params row col = "" := by
  simp only [cellItem]
  split_ifs with h <;> simp [h]

theorem mem_createGrid {chars : List String} {params : Params} {width height : ℝ}
    {it : GridItem} :
    it ∈ createGrid chars params width height ↔
      ∃ row < params.rows, ∃ col < params.columns,
        cellItem chars params width height row col = some it := by
  simp [createGrid, List.mem_flatMap, List.mem_filterMap, List.mem_range]

/-- C6: the layout generator emits items in row-major order with cell size
`canvas / grid` and base position at the cell centre plus tracking and line
spacing; `repeat` fills every cell with `chars[(row·columns+col) mod n]`,
`split-letter` populates exactly the cells with row-major index below the
character count, and `split-word` exactly column 0 of the first
`chars.length` rows. -/
theorem c6_createGrid_layout
    (chars : List String) (params : Params) (width height : ℝ)
    (hchars : chars ≠ []) (hne : ∀ s ∈ chars, s ≠ "")
    (hrows : 0 < params.rows) (hcols : 0 < params.columns) :
    (∀ it ∈ createGrid chars params width height,
      it.row < params.rows ∧ it.col < params.columns ∧
      it.cellWidth = width / (params.columns : ℝ) ∧
      it.cellHeight = height / (params.rows : ℝ) ∧
      it.x = (it.col : ℝ) * (width / (params.columns : ℝ)) +
        width / (params.columns : ℝ) / 2 + params.tracking ∧
      it.y = (it.row : ℝ) * (height / (params.rows : ℝ)) +
        height / (params.rows : ℝ) / 2 + params.lineSpacing) ∧
    (createGrid chars params width height).Pairwise
      (fun a b => a.row * params.columns + a.col < b.row * params.columns + b.col) ∧
    (params.textDistribution = "repeat" →
      ∀ r < params.rows, ∀ c < params.columns,
        ∃ it ∈ createGrid chars params width height,
          it.row = r ∧ it.col = c ∧
          it.char = chars.getD ((r * params.columns + c) % chars.length) "") ∧
    (params.textDistribution = "split-letter" →
      ∀ r < params.rows, ∀ c < params.columns,
        ((∃ it ∈ createGrid chars params width height, it.row = r ∧ it.col = c) ↔
          r * params.columns + c < chars.length) ∧
        (∀ it ∈ createGrid chars params width height, it.row = r → it.col = c →
          it.char = chars.getD (r * params.columns + c) "")) ∧
    (params.textDistribution = "split-word" →
      ∀ r < params.rows, ∀ c < params.columns,
        ((∃ it ∈ createGrid chars params width height, it.row = r ∧ it.col = c) ↔
          (c = 0 ∧ r < chars.length)) ∧
        (∀ it ∈ createGrid chars params width height, it.row = r → it.col = c →
          it.char = chars.getD r "")) := by
  have hlen : 0 < chars.length := List.length_pos.mpr hchars
  -- mode-specific character values
  have hchar_repeat : params.textDistribution = "repeat" →
      ∀ r c : ℕ, cellChar chars params r c =
        chars.getD ((r * params.columns + c) % chars.length) "" := by
    intro hd r c
    simp only [cellChar, hd]
    rw [if_neg (by decide), if_neg (by decide), if_neg hlen.ne']
  have hchar_letter : params.textDistribution = "split-letter" →
      ∀ r c : ℕ, cellChar chars params r c = chars.getD (r * params.columns + c) "" := by
    intro hd r c
    simp [cellChar, hd]
  have hchar_word : params.textDistribution = "split-word" →
      ∀ r c : ℕ, cellChar chars params r c =
        (if c = 0 ∧ r < chars.length then chars.getD r "" else "") := by
    intro hd r c
    simp [cellChar, hd]
  -- getD values in range are real characters, hence non-empty
  have hgetD_ne : ∀ n : ℕ, n < chars.length → chars.getD n "" ≠ "" := by
    intro n hn
    rw [List.getD_eq_getElem _ _ hn]
    exact hne _ (List.getElem_mem hn)
  have hgetD_out : ∀ n : ℕ, chars.length ≤ n → chars.getD n "" = "" := by
    intro n hn
    exact List.getD_eq_default _ _ hn
  -- presence of a cell in the output, in terms of its character
  have hpresent : ∀ r < params.rows, ∀ c < params.columns,
      ((∃ it ∈ createGrid chars params width height, it.row = r ∧ it.col = c) ↔
        cellChar chars params r c ≠ "") := by
    intro r hr c hc
    constructor
    · rintro ⟨it, hmem, hitr, hitc⟩
      obtain ⟨r', -, c', -, hsome⟩ := mem_createGrid.mp hmem
      obtain ⟨hne', rfl⟩ := cellItem_eq_some_iff.mp hsome
      simp only at hitr hitc
      rwa [hitr, hitc] at hne'
    · intro hne'
      refine ⟨_, mem_createGrid.mpr ⟨r, hr, c, hc, cellItem_eq_some_iff.mpr ⟨hne', rfl⟩⟩,
        rfl, rfl⟩
  -- characters of present cells
  have hcharof : ∀ it ∈ createGrid chars params width height,
      it.char = cellChar chars params it.row it.col := by
    intro it hmem
    obtain ⟨r', -, c', -, hsome⟩ := mem_createGrid.mp hmem
    obtain ⟨-, rfl⟩ := cellItem_eq_some_iff.mp hsome
    rfl
  refine ⟨?_, ?_, ?_, ?_, ?_⟩
  · -- field values
    intro it hmem
    obtain ⟨r', hr', c', hc', hsome⟩ := mem_createGrid.mp hmem
    obtain ⟨-, rfl⟩ := cellItem_eq_some_iff.mp hsome
    exact ⟨hr', hc', rfl, rfl, rfl, rfl⟩
  · -- row-major order
    unfold createGrid
    rw [List.pairwise_flatMap]
    constructor
    · intro r _hr
      rw [List.pairwise_filterMap]
      refine List.Pairwise.imp ?_ (List.pairwise_lt_range _)
      intro c c' hcc b hb b' hb'
      obtain ⟨-, rfl⟩ := cellItem_eq_some_iff.mp (Option.mem_def.mp hb)
      obtain ⟨-, rfl⟩ := cellItem_eq_some_iff.mp (Option.mem_def.mp hb')
      simpa using hcc
    · refine List.Pairwise.imp ?_ (List.pairwise_lt_range _)
      intro r r' hrr x hx y hy
      obtain ⟨c, hc, hsx⟩ := by
        simpa [List.mem_filterMap, List.mem_range] using hx
      obtain ⟨c', -, hsy⟩ := by
        simpa [List.mem_filterMap, List.mem_range] using hy
      obtain ⟨-, rfl⟩ := cellItem_eq_some_iff.mp hsx
      obtain ⟨-, rfl⟩ := cellItem_eq_some_iff.mp hsy
      simp only
      calc r * params.columns + c < r * params.columns + params.columns :=
            Nat.add_lt_add_left hc _
        _ = (r + 1) * params.columns := (Nat.succ_mul r params.columns).symm
        _ ≤ r' * params.columns := Nat.mul_le_mul_right _ hrr
        _ ≤ r' * params.columns + c' := Nat.le_add_right _ _
  · -- repeat
    intro hd r hr c hc
    have hne' : cellChar chars params r c ≠ "" := by
      rw [hchar_repeat hd]
      exact hgetD_ne _ (Nat.mod_lt _ hlen)
    refine ⟨_, mem_createGrid.mpr ⟨r, hr, c, hc, cellItem_eq_some_iff.mpr ⟨hne', rfl⟩⟩,
      rfl, rfl, ?_⟩
    exact hchar_repeat hd r c
  · -- split-letter
    intro hd r hr c hc
    constructor
    · rw [hpresent r hr c hc, hchar_letter hd]
      constructor
      · intro h
        by_contra hout
        exact h (hgetD_out _ (Nat.le_of_not_lt hout))
      · intro h
        exact hgetD_ne _ h
    · intro it hmem hitr hitc
      rw [hcharof it hmem, hitr, hitc, hchar_letter hd]
  · -- split-word
    intro hd r hr c hc
    constructor
    · rw [hpresent r hr c hc, hchar_word hd]
      constructor
      · intro h
        by_contra hcon
        rw [if_neg hcon] at h
        exact h rfl
      · intro h
        rw [if_pos h]
        exact hgetD_ne _ h.2
    · intro it hmem hitr hitc
      rw [hcharof it hmem, hitr, hitc, hchar_word hd]
      rcases Decidable.em (c = 0 ∧ r < chars.length) with h | h
      · rw [if_pos h]
      · -- the cell is absent in this case, contradicting membership
        exfalso
        have : cellChar chars params r c ≠ "" := by
          have := (hpresent r hr c hc).mp ⟨it, hmem, hitr, hitc⟩
          exact this
        rw [hchar_word hd, if_neg h] at this
        exact this rfl

/-- C6 witness: on a concrete 12×20 repeat-mode grid over the characters
`["a", "b"]`, cell `(1, 1)` holds character `chars[(1·20+1) mod 2]`. -/
theorem c6_witness :
    ∃ it ∈ createGrid ["a", "b"] sampleParams 100 60,
      it.row = 1 ∧ it.col = 1 ∧
      it.char = ["a", "b"].getD ((1 * sampleParams.columns + 1) % (["a", "b"].length)) "" := by
  have h := c6_createGrid_layout ["a", "b"] sampleParams 100 60 (by simp)
    (by simp) (by norm_num [sampleParams]) (by norm_num [sampleParams])
  exact h.2.2.1 rfl 1 (by norm_num [sampleParams]) 1 (by norm_num [sampleParams])

/-! ### Association-list lemmas for the collision-state `Map` -/

theorem getState_nil (j : ℕ) : getState [] j = none := rfl

theorem getState_cons (kv : ℕ × CollisionState) (rest : StateMap) (j : ℕ) :
    getState (kv :: rest) j = if kv.1 = j then some kv.2 else getState rest j := by
  simp only [getState, List.find?_cons]
  by_cases h : kv.1 = j
  · simp [h]
  · have hb : (kv.1 == j) = false := by simpa using h
    rw [hb, if_neg h]

theorem setState_nil (i : ℕ) (st : CollisionState) : setState [] i st = [(i, st)] := rfl

theorem setState_cons (kv : ℕ × CollisionState) (rest : StateMap) (i : ℕ) (st : CollisionState) :
    setState (kv :: rest) i st =
      if kv.1 = i then (i, st) :: rest else kv :: setState rest i st := rfl

theorem getState_setState_self (m : StateMap) (i : ℕ) (st : CollisionState) :
    getState (setState m i st) i = some st := by
  induction m with
  | nil => simp [setState_nil, getState_cons]
  | cons kv rest ih =>
    rw [setState_cons]
    by_cases h : kv.1 = i
    · rw [if_pos h, getState_cons, if_pos rfl]
    · rw [if_neg h, getState_cons, if_neg h, ih]

theorem getState_setState_ne (m : StateMap) {i j : ℕ} (st : CollisionState) (hij : i ≠ j) :
    getState (setState m i st) j = getState m j := by
  induction m with
  | nil => simp [setState_nil, getState_cons, getState_nil, hij]
  | cons kv rest ih =>
    rw [setState_cons]
    by_cases h : kv.1 = i
    · rw [if_pos h, getState_cons, getState_cons, if_neg hij, h, if_neg hij]
    · rw [if_neg h, getState_cons, getState_cons, ih]

theorem keys_setState (m : StateMap) (i : ℕ) (st : CollisionState) :
    (setState m i st).map Prod.fst = m.map Prod.fst ∨
    (setState m i st).map Prod.fst = m.map Prod.fst ++ [i] := by
  induction m with
  | nil => simp [setState_nil]
  | cons kv rest ih =>
    rw [setState_cons]
    by_cases h : kv.1 = i
    · left
      rw [if_pos h]
      simp [h]
    · rw [if_neg h]
      rcases ih with ih | ih
      · left
        simp [ih]
      · right
        simp [ih]

theorem nodup_keys_setState (m : StateMap) (i : ℕ) (st : CollisionState)
    (h : (m.map Prod.fst).Nodup) : ((setState m i st).map Prod.fst).Nodup := by
  induction m with
  | nil => simp [setState_nil]
  | cons kv rest ih =>
    rw [setState_cons]
    by_cases hk : kv.1 = i
    · rw [if_pos hk]
      simpa [hk] using h
    · rw [if_neg hk]
      simp only [List.map_cons, List.nodup_cons] at h ⊢
      refine ⟨?_, ih h.2⟩
      intro hmem
      rcases keys_setState rest i st with he | he
      · exact h.1 (he ▸ hmem)
      · rw [he, List.mem_append] at hmem
        rcases hmem with hm | hm
        · exact h.1 hm
        · simp at hm
          exact hk hm

/-! ### Lemmas about the guarded write block of the resolver -/

theorem startHalf_active_not_lt {m : StateMap} {idx : ℕ} {normal : ℝ × ℝ}
    {other : ℕ ⊕ String} {pen time : ℝ} {params : Params} {ctype : String}
    {st : CollisionState} (hst : getState m idx = some st) (hact : st.active = true)
    (hnp : ¬ st.penetration < pen) :
    startHalf m idx normal other pen time params ctype = m := by
  simp only [startHalf, hst]
  rw [if_neg]
  simp [hact, hnp]

theorem startHalf_supersede {m : StateMap} {idx : ℕ} {normal : ℝ × ℝ}
    {other : ℕ ⊕ String} {pen time : ℝ} {params : Params} {ctype : String}
    {st : CollisionState} (hst : getState m idx = some st) (hp : st.penetration < pen) :
    startHalf m idx normal other pen time params ctype =
      setState m idx (freshState normal other pen time params ctype) := by
  simp only [startHalf, hst]
  rw [if_pos (Or.inr hp)]

theorem getState_startHalf_ne {m : StateMap} {idx j : ℕ} {normal : ℝ × ℝ}
    {other : ℕ ⊕ String} {pen time : ℝ} {params : Params} {ctype : String}
    (hij : idx ≠ j) :
    getState (startHalf m idx normal other pen time params ctype) j = getState m j := by
  rcases h : getState m idx with - | st
  · simp only [startHalf, h]
    exact getState_setState_ne _ _ hij
  · simp only [startHalf, h]
    split_ifs with hg
    · exact getState_setState_ne _ _ hij
    · rfl

theorem nodup_keys_startHalf {m : StateMap} {idx : ℕ} {normal : ℝ × ℝ}
    {other : ℕ ⊕ String} {pen time : ℝ} {params : Params} {ctype : String}
    (h : (m.map Prod.fst).Nodup) :
    ((startHalf m idx normal other pen time params ctype).map Prod.fst).Nodup := by
  rcases hg : getState m idx with - | st
  · simp only [startHalf, hg]
    exact nodup_keys_setState _ _ _ h
  · simp only [startHalf, hg]
    split_ifs with hc
    · exact nodup_keys_setState _ _ _ h
    · exact h

/-! ### C8 — collision-state table invariant and supersede rule -/

/-- C8: the state table keyed by item index keeps at most one state per item
(duplicate-free keys are preserved), and processing a new collision for an
item that already has an active state replaces that state exactly when the
new collision's penetration is strictly greater than the stored one;
otherwise the stored state is left unchanged (for both the A side and, for
item-item collisions, the mirrored B side). -/
theorem c8_collision_state_table (m : StateMap) (c : Collision) (time : ℝ) (params : Params)
    (hnodup : (m.map Prod.fst).Nodup)
    (hAB : ∀ j, c.indexB = Sum.inl j → j ≠ c.indexA) :
    (((startCollisionResponse m c time params).map Prod.fst).Nodup) ∧
    (∀ st, getState m c.indexA = some st → st.active = true →
      ((¬ st.penetration < c.penetration →
          getState (startCollisionResponse m c time params) c.indexA = some st) ∧
        (st.penetration < c.penetration →
          getState (startCollisionResponse m c time params) c.indexA =
            some (freshState c.normal c.indexB c.penetration time params c.ctype)))) ∧
    (∀ j st, c.ctype = "item" → c.indexB = Sum.inl j →
      getState m j = some st → st.active = true →
      ((¬ st.penetration < c.penetration →
          getState (startCollisionResponse m c time params) j = some st) ∧
        (st.penetration < c.penetration →
          getState (startCollisionResponse m c time params) j =
            some (freshState (-c.normal.1, -c.normal.2) (Sum.inl c.indexA) c.penetration
              time params c.ctype)))) := by
  obtain ⟨cty, iA, iB, nrm, pen, cpt⟩ := c
  simp only at hAB ⊢
  refine ⟨?_, ?_, ?_⟩
  · -- duplicate-free keys are preserved
    have h1 : ((startHalf m iA nrm iB pen time params cty).map Prod.fst).Nodup :=
      nodup_keys_startHalf hnodup
    simp only [startCollisionResponse]
    split_ifs with hty
    · rcases iB with j | s
      · exact nodup_keys_startHalf h1
      · exact h1
    · exact h1
  · -- the A side
    intro st hst hact
    constructor
    · intro hnp
      have hm1 : startHalf m iA nrm iB pen time params cty = m :=
        startHalf_active_not_lt hst hact hnp
      simp only [startCollisionResponse, hm1]
      split_ifs with hty
      · rcases hB : iB with j | s
        · subst hB
          rw [getState_startHalf_ne (hAB j rfl)]
          exact hst
        · exact hst
      · exact hst
    · intro hp
      have hm1 : startHalf m iA nrm iB pen time params cty =
          setState m iA (freshState nrm iB pen time params cty) :=
        startHalf_supersede hst hp
      simp only [startCollisionResponse, hm1]
      split_ifs with hty
      · rcases hB : iB with j | s
        · subst hB
          rw [getState_startHalf_ne (hAB j rfl), getState_setState_self]
        · rw [getState_setState_self]
      · rw [getState_setState_self]
  · -- the mirrored B side
    intro j st hty hB hst hact
    subst hty
    subst hB
    have hne : iA ≠ j := Ne.symm (hAB j rfl)
    have hm1j : getState (startHalf m iA nrm (Sum.inl j) pen time params "item") j =
        some st := by
      rw [getState_startHalf_ne hne]
      exact hst
    constructor
    · intro hnp
      simp only [startCollisionResponse, reduceIte]
      rw [startHalf_active_not_lt hm1j hact hnp]
      exact hm1j
    · intro hp
      simp only [startCollisionResponse, reduceIte]
      rw [startHalf_supersede hm1j hp, getState_setState_self]

/-- C8 witness: with an active state of penetration 5 stored for item 0, a
new collision of penetration 3 leaves the stored state unchanged, and the
table still has duplicate-free keys. -/
theorem c8_witness :
    getState
      (startCollisionResponse
        [(0, freshState (1, 0) (Sum.inr "left") 5 0 sampleParams "item")]
        { ctype := "item", indexA := 0, indexB := Sum.inl 1, normal := (1, 0),
          penetration := 3, contactPoint := (0, 0) }
        10 sampleParams)
      0 = some (freshState (1, 0) (Sum.inr "left") 5 0 sampleParams "item") := by
  have h := c8_collision_state_table
    [(0, freshState (1, 0) (Sum.inr "left") 5 0 sampleParams "item")]
    { ctype := "item", indexA := 0, indexB := Sum.inl 1, normal := (1, 0),
      penetration := 3, contactPoint := (0, 0) }
    10 sampleParams (by simp)
    (by intro j hj; injection hj with hj; subst hj; decide)
  exact ((h.2.1 _ rfl rfl).1 (by norm_num [freshState]))

/-! ### C9 — deactivation timing and offset formula of the resolver update -/

theorem getState_updateMap (m : StateMap) (n : ℕ) (time : ℝ) (i : ℕ) :
    getState (m.map fun kv => if kv.1 < n then (kv.1, stepState kv.2 time) else kv) i =
      (getState m i).map fun st => if i < n then stepState st time else st := by
  induction m with
  | nil => rfl
  | cons kv rest ih =>
    rw [List.map_cons, getState_cons, getState_cons]
    by_cases hk : kv.1 = i
    · by_cases hn : kv.1 < n
      · rw [if_pos hn]
        simp [hk, hk ▸ hn]
      · rw [if_neg hn]
        simp [hk, hk ▸ hn]
    · by_cases hn : kv.1 < n
      · rw [if_pos hn]
        simp [hk, ih]
      · rw [if_neg hn]
        simp [hk, ih]

theorem range_map_getD (n : ℕ) (f : ℕ → ℝ × ℝ) (i : ℕ) (hi : i < n) :
    ((List.range n).map f).getD i (0, 0) = f i := by
  have hlen : i < ((List.range n).map f).length := by simpa
  rw [List.getD_eq_getElem _ _ hlen]
  simp

/-- C9: for an item with an active collision state, one resolver update
deactivates the state and zeroes the collision offset exactly when the
elapsed time `now − startTime` reaches the stored duration, and never
earlier; while `elapsed < duration` the state stays active and unchanged,
and the offset equals the stored normal scaled by
`(penetration + fontSize·0.3) · strength · curve(elapsed/duration)`. -/
theorem c9_collision_deactivation (m : StateMap) (numItems : ℕ) (time : ℝ) (params : Params)
    (i : ℕ) (hi : i < numItems) (st : CollisionState)
    (hst : getState m i = some st) (hact : st.active = true) (hdur : 0 < st.duration) :
    (st.duration ≤ time - st.startTime →
      getState (updateCollisionResponses m numItems time params).1 i =
        some { st with active := false } ∧
      (updateCollisionResponses m numItems time params).2.getD i (0, 0) = (0, 0)) ∧
    (time - st.startTime < st.duration →
      getState (updateCollisionResponses m numItems time params).1 i = some st ∧
      (updateCollisionResponses m numItems time params).2.getD i (0, 0) =
        (st.normal.1 * ((st.penetration + params.fontSize * 0.3) * st.strength) *
            collisionCurveAt (jsOrS params.positionCurve "sine")
              ((time - st.startTime) / st.duration),
          st.normal.2 * ((st.penetration + params.fontSize * 0.3) * st.strength) *
            collisionCurveAt (jsOrS params.positionCurve "sine")
              ((time - st.startTime) / st.duration))) := by
  have hactFalse : ¬ st.active = false := by simp [hact]
  constructor
  · intro hel
    have hge : (1 : ℝ) ≤ min ((time - st.startTime) / st.duration) 1 :=
      le_min ((one_le_div hdur).mpr hel) le_rfl
    constructor
    · simp only [updateCollisionResponses]
      rw [getState_updateMap, hst]
      simp only [Option.map_some', stepState]
      rw [if_pos hi, if_neg hactFalse, if_pos hge]
    · simp only [updateCollisionResponses]
      rw [range_map_getD _ _ _ hi, hst]
      simp only [stepOffset]
      rw [if_neg hactFalse, if_pos hge]
  · intro hel
    have hlt : (time - st.startTime) / st.duration < 1 := (div_lt_one hdur).mpr hel
    have hmin : min ((time - st.startTime) / st.duration) 1 =
        (time - st.startTime) / st.duration := min_eq_left hlt.le
    have hnge : ¬ (1 : ℝ) ≤ min ((time - st.startTime) / st.duration) 1 := by
      rw [hmin]
      exact not_le.mpr hlt
    constructor
    · simp only [updateCollisionResponses]
      rw [getState_updateMap, hst]
      simp only [Option.map_some', stepState]
      rw [if_pos hi, if_neg hactFalse, if_neg hnge]
    · simp only [updateCollisionResponses]
      rw [range_map_getD _ _ _ hi, hst]
      simp only [stepOffset]
      rw [if_neg hactFalse, if_neg hnge, hmin]

/-- C9 witness: a concrete active state of duration `0.5 · 60 = 30` clock
units started at time 0 is still active, with the curve-scaled offset, at
time 10, i.e. before the duration elapses. -/
theorem c9_witness :
    getState
      (updateCollisionResponses [(0, freshState (1, 0) (Sum.inl 1) 5 0 sampleParams "item")]
        1 10 sampleParams).1 0 =
      some (freshState (1, 0) (Sum.inl 1) 5 0 sampleParams "item") ∧
    (updateCollisionResponses [(0, freshState (1, 0) (Sum.inl 1) 5 0 sampleParams "item")]
        1 10 sampleParams).2.getD 0 (0, 0) =
      ((freshState (1, 0) (Sum.inl 1) 5 0 sampleParams "item").normal.1 *
          (((freshState (1, 0) (Sum.inl 1) 5 0 sampleParams "item").penetration +
              sampleParams.fontSize * 0.3) *
            (freshState (1, 0) (Sum.inl 1) 5 0 sampleParams "item").strength) *
          collisionCurveAt (jsOrS sampleParams.positionCurve "sine")
            ((10 - (freshState (1, 0) (Sum.inl 1) 5 0 sampleParams "item").startTime) /
              (freshState (1, 0) (Sum.inl 1) 5 0 sampleParams "item").duration),
        (freshState (1, 0) (Sum.inl 1) 5 0 sampleParams "item").normal.2 *
          (((freshState (1, 0) (Sum.inl 1) 5 0 sampleParams "item").penetration +
              sampleParams.fontSize * 0.3) *
            (freshState (1, 0) (Sum.inl 1) 5 0 sampleParams "item").strength) *
          collisionCurveAt (jsOrS sampleParams.positionCurve "sine")
            ((10 - (freshState (1, 0) (Sum.inl 1) 5 0 sampleParams "item").startTime) /
              (freshState (1, 0) (Sum.inl 1) 5 0 sampleParams "item").duration)) := by
  have h := c9_collision_deactivation
    [(0, freshState (1, 0) (Sum.inl 1) 5 0 sampleParams "item")] 1 10 sampleParams
    0 (by norm_num) (freshState (1, 0) (Sum.inl 1) 5 0 sampleParams "item")
    rfl rfl (by norm_num [freshState, sampleParams])
  exact h.2 (by norm_num [freshState, sampleParams])

/-! ### Spatial-hash lemmas -/

section HashLemmas

variable {α : Type} [LinearOrderedField α] [FloorRing α]

theorem mem_intRange {a b k : ℤ} : k ∈ intRange a b ↔ a ≤ k ∧ k ≤ b := by
  simp only [intRange, List.mem_map, List.mem_range]
  constructor
  · rintro ⟨m, hm, rfl⟩
    omega
  · rintro ⟨h1, h2⟩
    exact ⟨(k - a).toNat, by omega, by omega⟩

theorem mem_getCellKeys {s x y r : α} {k : ℤ × ℤ} :
    k ∈ getCellKeys s x y r ↔
      (⌊(x - r) / s⌋ ≤ k.1 ∧ k.1 ≤ ⌊(x + r) / s⌋ ∧
        ⌊(y - r) / s⌋ ≤ k.2 ∧ k.2 ≤ ⌊(y + r) / s⌋) := by
  obtain ⟨kc, kr⟩ := k
  simp only [getCellKeys, List.mem_flatMap, List.mem_map, mem_intRange, Prod.mk.injEq]
  constructor
  · rintro ⟨c, hc, r', hr', rfl, rfl⟩
    exact ⟨hc.1, hc.2, hr'.1, hr'.2⟩
  · rintro ⟨h1, h2, h3, h4⟩
    exact ⟨kc, ⟨h1, h2⟩, kr, ⟨h3, h4⟩, rfl, rfl⟩

theorem cellGet_nil (k : ℤ × ℤ) : cellGet [] k = none := rfl

theorem cellGet_cons (kv : (ℤ × ℤ) × List ℕ) (rest : List ((ℤ × ℤ) × List ℕ)) (k : ℤ × ℤ) :
    cellGet (kv :: rest) k = if kv.1 = k then some kv.2 else cellGet rest k := by
  simp only [cellGet, List.find?_cons]
  by_cases h : kv.1 = k
  · simp [h]
  · have hb : (kv.1 == k) = false := by simpa using h
    rw [hb, if_neg h]

theorem cellAdd_nil (k : ℤ × ℤ) (i : ℕ) : cellAdd [] k i = [(k, [i])] := rfl

theorem cellAdd_cons (kv : (ℤ × ℤ) × List ℕ) (rest : List ((ℤ × ℤ) × List ℕ))
    (k : ℤ × ℤ) (i : ℕ) :
    cellAdd (kv :: rest) k i =
      if kv.1 = k then (kv.1, if i ∈ kv.2 then kv.2 else kv.2 ++ [i]) :: rest
      else kv :: cellAdd rest k i := rfl

theorem mem_cellGet_cellAdd_self (cells : List ((ℤ × ℤ) × List ℕ)) (k : ℤ × ℤ) (i : ℕ) :
    i ∈ (cellGet (cellAdd cells k i) k).getD [] := by
  induction cells with
  | nil => simp [cellAdd_nil, cellGet_cons]
  | cons kv rest ih =>
    rw [cellAdd_cons]
    by_cases h : kv.1 = k
    · rw [if_pos h, cellGet_cons, if_pos h]
      by_cases hm : i ∈ kv.2
      · simpa [hm]
      · simp [hm]
    · rw [if_neg h, cellGet_cons, if_neg h]
      exact ih

theorem mem_cellGet_cellAdd_mono (cells : List ((ℤ × ℤ) × List ℕ)) (k' : ℤ × ℤ) (j : ℕ)
    {k : ℤ × ℤ} {i : ℕ} (h : i ∈ (cellGet cells k).getD []) :
    i ∈ (cellGet (cellAdd cells k' j) k).getD [] := by
  induction cells with
  | nil => simp [cellGet_nil] at h
  | cons kv rest ih =>
    rw [cellGet_cons] at h
    rw [cellAdd_cons]
    by_cases h2 : kv.1 = k
    · rw [if_pos h2] at h
      simp only [Option.getD_some] at h
      by_cases h1 : kv.1 = k'
      · rw [if_pos h1, cellGet_cons, if_pos h2]
        by_cases hm : j ∈ kv.2
        · simpa [hm]
        · simp only [if_neg hm, Option.getD_some]
          exact List.mem_append_left _ h
      · rw [if_neg h1, cellGet_cons, if_pos h2]
        exact h
    · rw [if_neg h2] at h
      by_cases h1 : kv.1 = k'
      · rw [if_pos h1, cellGet_cons, if_neg h2]
        exact h
      · rw [if_neg h1, cellGet_cons, if_neg h2]
        exact ih h

theorem keys_cellAdd (cells : List ((ℤ × ℤ) × List ℕ)) (k : ℤ × ℤ) (i : ℕ) :
    (cellAdd cells k i).map Prod.fst = cells.map Prod.fst ∨
    (cellAdd cells k i).map Prod.fst = cells.map Prod.fst ++ [k] := by
  induction cells with
  | nil => simp [cellAdd_nil]
  | cons kv rest ih =>
    rw [cellAdd_cons]
    by_cases h : kv.1 = k
    · left
      rw [if_pos h]
      simp
    · rw [if_neg h]
      rcases ih with ih | ih
      · left
        simp [ih]
      · right
        simp [ih]

theorem nodup_keys_cellAdd (cells : List ((ℤ × ℤ) × List ℕ)) (k : ℤ × ℤ) (i : ℕ)
    (h : (cells.map Prod.fst).Nodup) : ((cellAdd cells k i).map Prod.fst).Nodup := by
  induction cells with
  | nil => simp [cellAdd_nil]
  | cons kv rest ih =>
    rw [cellAdd_cons]
    by_cases hk : kv.1 = k
    · rw [if_pos hk]
      simpa using h
    · rw [if_neg hk]
      simp only [List.map_cons, List.nodup_cons] at h ⊢
      refine ⟨?_, ih h.2⟩
      intro hmem
      rcases keys_cellAdd rest k i with he | he
      · exact h.1 (he ▸ hmem)
      · rw [he, List.mem_append] at hmem
        rcases hmem with hm | hm
        · exact h.1 hm
        · simp at hm
          exact hk hm

theorem mem_cellGet_iff (cells : List ((ℤ × ℤ) × List ℕ))
    (hnodup : (cells.map Prod.fst).Nodup) (k : ℤ × ℤ) (i : ℕ) :
    i ∈ (cellGet cells k).getD [] ↔ ∃ kv ∈ cells, kv.1 = k ∧ i ∈ kv.2 := by
  induction cells with
  | nil => simp [cellGet_nil]
  | cons kv rest ih =>
    rw [cellGet_cons]
    simp only [List.map_cons, List.nodup_cons] at hnodup
    by_cases h : kv.1 = k
    · rw [if_pos h]
      simp only [Option.getD_some]
      constructor
      · intro hm
        exact ⟨kv, List.mem_cons_self _ _, h, hm⟩
      · rintro ⟨kv', hkv', hk', hm⟩
        rcases List.mem_cons.mp hkv' with rfl | hkv'
        · exact hm
        · exfalso
          apply hnodup.1
          rw [h, ← hk']
          exact List.mem_map_of_mem Prod.fst hkv'
    · rw [if_neg h, ih hnodup.2]
      constructor
      · rintro ⟨kv', hkv', hk, hm⟩
        exact ⟨kv', List.mem_cons_of_mem _ hkv', hk, hm⟩
      · rintro ⟨kv', hkv', hk, hm⟩
        rcases List.mem_cons.mp hkv' with rfl | hkv'
        · exact absurd hk h
        · exact ⟨kv', hkv', hk, hm⟩

theorem mem_foldl_cellAdd_mono (ks : List (ℤ × ℤ)) (cells : List ((ℤ × ℤ) × List ℕ))
    (j : ℕ) {k : ℤ × ℤ} {i : ℕ} (h : i ∈ (cellGet cells k).getD []) :
    i ∈ (cellGet (ks.foldl (fun cs k' => cellAdd cs k' j) cells) k).getD [] := by
  induction ks generalizing cells with
  | nil => exact h
  | cons a rest ih =>
    rw [List.foldl_cons]
    exact ih _ (mem_cellGet_cellAdd_mono _ _ _ h)

theorem mem_foldl_cellAdd_self (ks : List (ℤ × ℤ)) (cells : List ((ℤ × ℤ) × List ℕ))
    (i : ℕ) {k : ℤ × ℤ} (hk : k ∈ ks) :
    i ∈ (cellGet (ks.foldl (fun cs k' => cellAdd cs k' i) cells) k).getD [] := by
  induction ks generalizing cells with
  | nil => cases hk
  | cons a rest ih =>
    rw [List.foldl_cons]
    rcases List.mem_cons.mp hk with rfl | hk'
    · exact mem_foldl_cellAdd_mono rest _ _ (mem_cellGet_cellAdd_self cells k i)
    · exact ih _ hk'

theorem nodup_keys_foldl_cellAdd (ks : List (ℤ × ℤ)) (cells : List ((ℤ × ℤ) × List ℕ))
    (i : ℕ) (h : (cells.map Prod.fst).Nodup) :
    (((ks.foldl (fun cs k' => cellAdd cs k' i) cells)).map Prod.fst).Nodup := by
  induction ks generalizing cells with
  | nil => exact h
  | cons a rest ih =>
    rw [List.foldl_cons]
    exact ih _ (nodup_keys_cellAdd _ _ _ h)

theorem cells_insert (h : SpatialHash α) (i : ℕ) (x y r : α) :
    (h.insert i x y r).cells =
      (getCellKeys h.cellSize x y r).foldl (fun cs k => cellAdd cs k i) h.cells := rfl

theorem cellSize_insert (h : SpatialHash α) (i : ℕ) (x y r : α) :
    (h.insert i x y r).cellSize = h.cellSize := rfl

theorem mem_cells_insert_self (h : SpatialHash α) (idx : ℕ) (x y r : α) {k : ℤ × ℤ}
    (hk : k ∈ getCellKeys h.cellSize x y r) :
    idx ∈ (cellGet (h.insert idx x y r).cells k).getD [] := by
  rw [cells_insert]
  exact mem_foldl_cellAdd_self _ _ _ hk

theorem mem_cells_insert_mono (h : SpatialHash α) (idx : ℕ) (x y r : α) {k : ℤ × ℤ} {i : ℕ}
    (hm : i ∈ (cellGet h.cells k).getD []) :
    i ∈ (cellGet (h.insert idx x y r).cells k).getD [] := by
  rw [cells_insert]
  exact mem_foldl_cellAdd_mono _ _ _ hm

theorem cellSize_foldl_insert (l : List (ℕ × α × α × α)) (acc : SpatialHash α) :
    ((l.foldl (fun h e => h.insert e.1 e.2.1 e.2.2.1 e.2.2.2) acc)).cellSize =
      acc.cellSize := by
  induction l generalizing acc with
  | nil => rfl
  | cons a rest ih =>
    rw [List.foldl_cons, ih]
    rfl

theorem cellSize_insertAll (h : SpatialHash α) (l : List (ℕ × α × α × α)) :
    (h.insertAll l).cellSize = h.cellSize := by
  unfold SpatialHash.insertAll
  rw [cellSize_foldl_insert]
  rfl

theorem nodup_keys_foldl_insert (l : List (ℕ × α × α × α)) (acc : SpatialHash α)
    (h : ((acc.cells).map Prod.fst).Nodup) :
    (((l.foldl (fun h e => h.insert e.1 e.2.1 e.2.2.1 e.2.2.2) acc)).cells.map Prod.fst).Nodup := by
  induction l generalizing acc with
  | nil => exact h
  | cons a rest ih =>
    rw [List.foldl_cons]
    refine ih _ ?_
    rw [cells_insert]
    exact nodup_keys_foldl_cellAdd _ _ _ h

theorem nodup_keys_insertAll (h : SpatialHash α) (l : List (ℕ × α × α × α)) :
    (((h.insertAll l).cells).map Prod.fst).Nodup := by
  unfold SpatialHash.insertAll
  exact nodup_keys_foldl_insert _ _ (by simp [SpatialHash.clear])

theorem mem_cells_foldl_insert_mono (l : List (ℕ × α × α × α)) (acc : SpatialHash α)
    {k : ℤ × ℤ} {i : ℕ} (h : i ∈ (cellGet acc.cells k).getD []) :
    i ∈ (cellGet ((l.foldl (fun h e => h.insert e.1 e.2.1 e.2.2.1 e.2.2.2) acc)).cells k).getD [] := by
  induction l generalizing acc with
  | nil => exact h
  | cons a rest ih =>
    rw [List.foldl_cons]
    exact ih _ (mem_cells_insert_mono _ _ _ _ _ h)

theorem mem_cells_foldl_insert (l : List (ℕ × α × α × α)) (acc : SpatialHash α)
    {e : ℕ × α × α × α} (he : e ∈ l) {k : ℤ × ℤ}
    (hk : k ∈ getCellKeys acc.cellSize e.2.1 e.2.2.1 e.2.2.2) :
    e.1 ∈ (cellGet ((l.foldl (fun h e => h.insert e.1 e.2.1 e.2.2.1 e.2.2.2) acc)).cells k).getD [] := by
  induction l generalizing acc with
  | nil => cases he
  | cons a rest ih =>
    rw [List.foldl_cons]
    rcases List.mem_cons.mp he with rfl | he'
    · exact mem_cells_foldl_insert_mono rest _ (mem_cells_insert_self _ _ _ _ _ hk)
    · exact ih _ he' hk

theorem mem_cells_insertAll (h0 : SpatialHash α) (l : List (ℕ × α × α × α))
    {e : ℕ × α × α × α} (he : e ∈ l) {k : ℤ × ℤ}
    (hk : k ∈ getCellKeys h0.cellSize e.2.1 e.2.2.1 e.2.2.2) :
    e.1 ∈ (cellGet ((h0.insertAll l).cells) k).getD [] := by
  unfold SpatialHash.insertAll
  exact mem_cells_foldl_insert _ _ he hk

theorem mem_query {h : SpatialHash α} {x y r : α} {i : ℕ} :
    i ∈ h.query x y r ↔
      ∃ k ∈ getCellKeys h.cellSize x y r, i ∈ (cellGet h.cells k).getD [] := by
  simp [SpatialHash.query, List.mem_dedup, List.mem_flatMap]

theorem floor_le_iff_box {s : α} (hs : 0 < s) (c : ℤ) (lo hi : α) :
    (⌊lo / s⌋ ≤ c ∧ c ≤ ⌊hi / s⌋) ↔ ((c : α) * s ≤ hi ∧ lo < ((c : α) + 1) * s) := by
  constructor
  · rintro ⟨h1, h2⟩
    constructor
    · have := Int.le_floor.mp h2
      exact (le_div_iff hs).mp this
    · have h3 : ⌊lo / s⌋ < c + 1 := by omega
      have h4 : lo / s < ((c + 1 : ℤ) : α) := Int.floor_lt.mp h3
      have h5 : lo < ((c + 1 : ℤ) : α) * s := (div_lt_iff hs).mp h4
      push_cast at h5
      linarith
  · rintro ⟨h1, h2⟩
    constructor
    · have h4 : lo / s < ((c : α) + 1) := by
        rw [div_lt_iff hs]
        linarith
      have h5 : ⌊lo / s⌋ < c + 1 := Int.floor_lt.mpr (by push_cast; linarith [h4])
      omega
    · exact Int.le_floor.mpr ((le_div_iff hs).mpr h1)

theorem overlap_floor_exists {s : α} (hs : 0 < s) {a1 b1 a2 b2 : α}
    (h11 : a1 ≤ b1) (h22 : a2 ≤ b2) (h12 : a1 ≤ b2) (h21 : a2 ≤ b1) :
    ∃ c : ℤ, (⌊a1 / s⌋ ≤ c ∧ c ≤ ⌊b1 / s⌋) ∧ (⌊a2 / s⌋ ≤ c ∧ c ≤ ⌊b2 / s⌋) := by
  refine ⟨⌊max a1 a2 / s⌋, ⟨?_, ?_⟩, ?_, ?_⟩
  · exact Int.floor_le_floor ((div_le_div_right hs).mpr (le_max_left _ _))
  · exact Int.floor_le_floor ((div_le_div_right hs).mpr (max_le h11 h21))
  · exact Int.floor_le_floor ((div_le_div_right hs).mpr (le_max_right _ _))
  · exact Int.floor_le_floor ((div_le_div_right hs).mpr (max_le h12 h22))

theorem keys_foldl_cellAdd_subset (ks : List (ℤ × ℤ)) (cells : List ((ℤ × ℤ) × List ℕ))
    (i : ℕ) {k : ℤ × ℤ}
    (h : k ∈ ((ks.foldl (fun cs k' => cellAdd cs k' i) cells)).map Prod.fst) :
    k ∈ cells.map Prod.fst ∨ k ∈ ks := by
  induction ks generalizing cells with
  | nil => exact Or.inl h
  | cons a rest ih =>
    rw [List.foldl_cons] at h
    rcases ih _ h with h' | h'
    · rcases keys_cellAdd cells a i with he | he
      · rw [he] at h'
        exact Or.inl h'
      · rw [he, List.mem_append] at h'
        rcases h' with h' | h'
        · exact Or.inl h'
        · simp at h'
          exact Or.inr (h' ▸ List.mem_cons_self _ _)
    · exact Or.inr (List.mem_cons_of_mem _ h')

theorem keys_insert_subset (h : SpatialHash α) (i : ℕ) (x y r : α) {k : ℤ × ℤ}
    (hm : k ∈ ((h.insert i x y r).cells).map Prod.fst) :
    k ∈ (h.cells).map Prod.fst ∨ k ∈ getCellKeys h.cellSize x y r := by
  rw [cells_insert] at hm
  exact keys_foldl_cellAdd_subset _ _ _ hm

theorem keys_foldl_insert_subset (l : List (ℕ × α × α × α)) (acc : SpatialHash α) {k : ℤ × ℤ}
    (h : k ∈ (((l.foldl (fun h e => h.insert e.1 e.2.1 e.2.2.1 e.2.2.2) acc)).cells).map Prod.fst) :
    k ∈ (acc.cells).map Prod.fst ∨
      ∃ e ∈ l, k ∈ getCellKeys acc.cellSize e.2.1 e.2.2.1 e.2.2.2 := by
  induction l generalizing acc with
  | nil => exact Or.inl h
  | cons a rest ih =>
    rw [List.foldl_cons] at h
    rcases ih _ h with h' | h'
    · rcases keys_insert_subset _ _ _ _ _ h' with h'' | h''
      · exact Or.inl h''
      · exact Or.inr ⟨a, List.mem_cons_self _ _, h''⟩
    · obtain ⟨e, he, hke⟩ := h'
      exact Or.inr ⟨e, List.mem_cons_of_mem _ he, hke⟩

theorem keys_insertAll_subset (h0 : SpatialHash α) (l : List (ℕ × α × α × α)) {k : ℤ × ℤ}
    (h : k ∈ ((h0.insertAll l).cells).map Prod.fst) :
    ∃ e ∈ l, k ∈ getCellKeys h0.cellSize e.2.1 e.2.2.1 e.2.2.2 := by
  unfold SpatialHash.insertAll at h
  rcases keys_foldl_insert_subset _ _ h with h' | h'
  · simp [SpatialHash.clear] at h'
  · exact h'

end HashLemmas

/-! ### C10 — spatial-hash query semantics -/

/-- C10 counterexample: a concrete rational instance where `query` returns
the item stored in a corner cell whose square does **not** overlap the query
circle, so the returned set is not the union of the items in cells
overlapping the query circle.  The single inserted item lives only in cell
`(1, 1)` = `[1,2]×[1,2]`, whose distance to the query centre `(4/5, 4/5)`
exceeds the query radius `1/4`, yet `query` returns it because that cell
meets the bounding box of the circle. -/
theorem c10_counterexample :
    0 ∈ ((SpatialHash.create (1 : ℚ) 10 10).insertAll
        [(0, 3/2, 3/2, 1/10)]).query (4/5) (4/5) (1/4) ∧
    ¬ inSpecCircleUnion
        ((SpatialHash.create (1 : ℚ) 10 10).insertAll [(0, 3/2, 3/2, 1/10)])
        (4/5) (4/5) (1/4) 0 := by
  have hcs : ((SpatialHash.create (1 : ℚ) 10 10).insertAll
      [(0, 3/2, 3/2, 1/10)]).cellSize = 1 := by
    rw [cellSize_insertAll]
    rfl
  constructor
  · apply mem_query.mpr
    refine ⟨(1, 1), ?_, ?_⟩
    · rw [hcs, mem_getCellKeys]
      norm_num
    · apply mem_cells_insertAll (SpatialHash.create (1 : ℚ) 10 10)
        [(0, 3/2, 3/2, 1/10)] (List.mem_singleton.mpr rfl)
      show ((1 : ℤ), (1 : ℤ)) ∈ getCellKeys (1 : ℚ) (3/2) (3/2) (1/10)
      rw [mem_getCellKeys]
      norm_num
  · rintro ⟨kv, hkv, hmem0, hov⟩
    obtain ⟨e, he, hke⟩ := keys_insertAll_subset _ _ (List.mem_map_of_mem Prod.fst hkv)
    have hcr : (SpatialHash.create (1 : ℚ) 10 10).cellSize = 1 := rfl
    rw [List.mem_singleton] at he
    subst he
    rw [hcr, mem_getCellKeys] at hke
    norm_num at hke
    have h1 : kv.1.1 = 1 := le_antisymm hke.2.1 hke.1
    have h2 : kv.1.2 = 1 := le_antisymm hke.2.2.2 hke.2.2.1
    rw [hcs] at hov
    unfold specCellCircleOverlap at hov
    rw [h1, h2] at hov
    norm_num [max_def, min_def] at hov

/-- Completeness of `query` over a rebuilt hash: every inserted index whose
bounding circle overlaps the query circle is among the candidates. -/
theorem query_complete {α : Type} [LinearOrderedField α] [FloorRing α]
    (h0 : SpatialHash α) (l : List (ℕ × α × α × α)) (qx qy qr : α)
    (hs : 0 < h0.cellSize) (hqr : 0 ≤ qr) {e : ℕ × α × α × α} (he : e ∈ l)
    (hr : 0 ≤ e.2.2.2)
    (hoverlap : (e.2.1 - qx) ^ 2 + (e.2.2.1 - qy) ^ 2 ≤ (e.2.2.2 + qr) ^ 2) :
    e.1 ∈ (h0.insertAll l).query qx qy qr := by
  have hcs : (h0.insertAll l).cellSize = h0.cellSize := cellSize_insertAll h0 l
  have hrqr : (0 : α) ≤ e.2.2.2 + qr := by linarith
  have hxa : e.2.1 - qx ≤ e.2.2.2 + qr := by
    nlinarith [sq_nonneg (e.2.2.1 - qy)]
  have hxb : qx - e.2.1 ≤ e.2.2.2 + qr := by
    nlinarith [sq_nonneg (e.2.2.1 - qy)]
  have hya : e.2.2.1 - qy ≤ e.2.2.2 + qr := by
    nlinarith [sq_nonneg (e.2.1 - qx)]
  have hyb : qy - e.2.2.1 ≤ e.2.2.2 + qr := by
    nlinarith [sq_nonneg (e.2.1 - qx)]
  obtain ⟨cx, hcx1, hcx2⟩ := overlap_floor_exists hs
    (show e.2.1 - e.2.2.2 ≤ e.2.1 + e.2.2.2 by linarith)
    (show qx - qr ≤ qx + qr by linarith)
    (show e.2.1 - e.2.2.2 ≤ qx + qr by linarith)
    (show qx - qr ≤ e.2.1 + e.2.2.2 by linarith)
  obtain ⟨cy, hcy1, hcy2⟩ := overlap_floor_exists hs
    (show e.2.2.1 - e.2.2.2 ≤ e.2.2.1 + e.2.2.2 by linarith)
    (show qy - qr ≤ qy + qr by linarith)
    (show e.2.2.1 - e.2.2.2 ≤ qy + qr by linarith)
    (show qy - qr ≤ e.2.2.1 + e.2.2.2 by linarith)
  have hkIns : ((cx, cy) : ℤ × ℤ) ∈ getCellKeys h0.cellSize e.2.1 e.2.2.1 e.2.2.2 :=
    mem_getCellKeys.mpr ⟨hcx1.1, hcx1.2, hcy1.1, hcy1.2⟩
  have hkQ : ((cx, cy) : ℤ × ℤ) ∈ getCellKeys (h0.insertAll l).cellSize qx qy qr := by
    rw [hcs]
    exact mem_getCellKeys.mpr ⟨hcx2.1, hcx2.2, hcy2.1, hcy2.2⟩
  exact mem_query.mpr ⟨(cx, cy), hkQ, mem_cells_insertAll h0 l he hkIns⟩

/-- C10 (amended): after `clear()` followed by any sequence of `insert`
calls, `query` returns exactly the indices stored in the cells (taken as the
half-open grid squares) overlapping the **axis-aligned bounding square** of
the query circle — a superset of the cells overlapping the circle itself;
in particular, every inserted index whose bounding circle overlaps the query
circle is contained in the returned candidate set. -/
theorem c10_query_box_semantics {α : Type} [LinearOrderedField α] [FloorRing α]
    (h0 : SpatialHash α) (l : List (ℕ × α × α × α)) (qx qy qr : α)
    (hs : 0 < h0.cellSize) (hqr : 0 ≤ qr) :
    (∀ i : ℕ, i ∈ (h0.insertAll l).query qx qy qr ↔
      inSpecBoxUnion (h0.insertAll l) qx qy qr i) ∧
    (∀ e ∈ l, 0 ≤ e.2.2.2 →
      (e.2.1 - qx) ^ 2 + (e.2.2.1 - qy) ^ 2 ≤ (e.2.2.2 + qr) ^ 2 →
      e.1 ∈ (h0.insertAll l).query qx qy qr) := by
  have hcs : (h0.insertAll l).cellSize = h0.cellSize := cellSize_insertAll h0 l
  have hnodup : (((h0.insertAll l).cells).map Prod.fst).Nodup := nodup_keys_insertAll h0 l
  constructor
  · intro i
    rw [mem_query]
    unfold inSpecBoxUnion
    constructor
    · rintro ⟨k, hk, hm⟩
      rw [mem_getCellKeys, hcs] at hk
      obtain ⟨kv, hkv, hkey, hm'⟩ := (mem_cellGet_iff _ hnodup k i).mp hm
      refine ⟨kv, hkv, hm', ?_⟩
      unfold specCellBoxOverlap
      rw [hkey, hcs]
      have hx := (floor_le_iff_box hs k.1 (qx - qr) (qx + qr)).mp ⟨hk.1, hk.2.1⟩
      have hy := (floor_le_iff_box hs k.2 (qy - qr) (qy + qr)).mp ⟨hk.2.2.1, hk.2.2.2⟩
      exact ⟨hx.1, hx.2, hy.1, hy.2⟩
    · rintro ⟨kv, hkv, hm', hbox⟩
      unfold specCellBoxOverlap at hbox
      rw [hcs] at hbox
      refine ⟨kv.1, ?_, ?_⟩
      · rw [mem_getCellKeys, hcs]
        have hx := (floor_le_iff_box hs kv.1.1 (qx - qr) (qx + qr)).mpr ⟨hbox.1, hbox.2.1⟩
        have hy := (floor_le_iff_box hs kv.1.2 (qy - qr) (qy + qr)).mpr
          ⟨hbox.2.2.1, hbox.2.2.2⟩
        exact ⟨hx.1, hx.2, hy.1, hy.2⟩
      · exact (mem_cellGet_iff _ hnodup kv.1 i).mpr ⟨kv, hkv, rfl, hm'⟩
  · intro e he hr hoverlap
    exact query_complete h0 l qx qy qr hs hqr he hr hoverlap

/-- C10 witness: over `ℚ`, an item inserted at `(3/2, 3/2)` with radius
`1/10` is returned by a query at `(7/5, 3/2)` with radius `1/5`, whose
circle overlaps the item's bounding circle. -/
theorem c10_witness :
    0 ∈ ((SpatialHash.create (1 : ℚ) 10 10).insertAll
        [(0, 3/2, 3/2, 1/10)]).query (7/5) (3/2) (1/5) := by
  have h := c10_query_box_semantics (SpatialHash.create (1 : ℚ) 10 10)
    [(0, 3/2, 3/2, 1/10)] (7/5) (3/2) (1/5) (by norm_num [SpatialHash.create]) (by norm_num)
  exact h.2 (0, 3/2, 3/2, 1/10) (by simp) (by norm_num) (by norm_num)

/-! ### Detector lemmas -/

theorem checkCircleCollision_some_of_overlap {itemA itemB : GridItem} {iA iB : ℕ}
    {params : Params} {posA posB : Transform}
    (htA : itemA.transformed = some posA) (htB : itemB.transformed = some posB)
    (hov : (posB.x - posA.x) * (posB.x - posA.x) + (posB.y - posA.y) * (posB.y - posA.y) <
        (getItemRadius itemA params + getItemRadius itemB params) *
          (getItemRadius itemA params + getItemRadius itemB params) ∧
      0 < (posB.x - posA.x) * (posB.x - posA.x) + (posB.y - posA.y) * (posB.y - posA.y)) :
    checkCircleCollision itemA itemB iA iB params =
      some
        { ctype := "item"
          indexA := iA
          indexB := Sum.inl iB
          normal :=
            ((posB.x - posA.x) /
              Real.sqrt ((posB.x - posA.x) * (posB.x - posA.x) +
                (posB.y - posA.y) * (posB.y - posA.y)),
             (posB.y - posA.y) /
              Real.sqrt ((posB.x - posA.x) * (posB.x - posA.x) +
                (posB.y - posA.y) * (posB.y - posA.y)))
          penetration :=
            getItemRadius itemA params + getItemRadius itemB params -
              Real.sqrt ((posB.x - posA.x) * (posB.x - posA.x) +
                (posB.y - posA.y) * (posB.y - posA.y))
          contactPoint :=
            (posA.x + (posB.x - posA.x) /
                Real.sqrt ((posB.x - posA.x) * (posB.x - posA.x) +
                  (posB.y - posA.y) * (posB.y - posA.y)) * getItemRadius itemA params,
             posA.y + (posB.y - posA.y) /
                Real.sqrt ((posB.x - posA.x) * (posB.x - posA.x) +
                  (posB.y - posA.y) * (posB.y - posA.y)) * getItemRadius itemA params) } := by
  simp only [checkCircleCollision, htA, htB]
  rw [if_pos hov]

theorem checkCircleCollision_none_of_no_overlap {itemA itemB : GridItem} {iA iB : ℕ}
    {params : Params} {posA posB : Transform}
    (htA : itemA.transformed = some posA) (htB : itemB.transformed = some posB)
    (hov : ¬ ((posB.x - posA.x) * (posB.x - posA.x) + (posB.y - posA.y) * (posB.y - posA.y) <
        (getItemRadius itemA params + getItemRadius itemB params) *
          (getItemRadius itemA params + getItemRadius itemB params) ∧
      0 < (posB.x - posA.x) * (posB.x - posA.x) + (posB.y - posA.y) * (posB.y - posA.y))) :
    checkCircleCollision itemA itemB iA iB params = none := by
  simp only [checkCircleCollision, htA, htB]
  rw [if_neg hov]

theorem checkCircleCollision_fields {itemA itemB : GridItem} {iA iB : ℕ} {params : Params}
    {r : Collision} (h : checkCircleCollision itemA itemB iA iB params = some r) :
    r.ctype = "item" ∧ r.indexA = iA ∧ r.indexB = Sum.inl iB := by
  unfold checkCircleCollision at h
  cases htA : itemA.transformed with
  | none => rw [htA] at h; cases h
  | some posA =>
    cases htB : itemB.transformed with
    | none => rw [htA, htB] at h; cases h
    | some posB =>
      rw [htA, htB] at h
      simp only at h
      split_ifs at h with hc
      obtain rfl := (Option.some.inj h).symm
      exact ⟨rfl, rfl, rfl⟩

theorem mem_checkWallCollisions_ctype {item : GridItem} {idx : ℕ} {params : Params}
    {cw ch : ℝ} {r : Collision} (h : r ∈ checkWallCollisions item idx params cw ch) :
    r.ctype = "wall" := by
  unfold checkWallCollisions at h
  cases htr : item.transformed with
  | none => rw [htr] at h; cases h
  | some pos =>
    rw [htr] at h
    simp only [List.mem_append] at h
    rcases h with ((h | h) | h) | h <;>
      (revert h
       split_ifs <;> intro h) <;>
      simp_all

theorem foldl_insert_filterMap (l : List (ℕ × GridItem)) (params : Params)
    (acc : SpatialHash ℝ) :
    l.foldl
      (fun h p =>
        match p.2.transformed with
        | none => h
        | some tr => h.insert p.1 tr.x tr.y (getItemRadius p.2 params)) acc =
    (l.filterMap fun p => p.2.transformed.map fun tr =>
        (p.1, tr.x, tr.y, getItemRadius p.2 params)).foldl
      (fun h e => h.insert e.1 e.2.1 e.2.2.1 e.2.2.2) acc := by
  induction l generalizing acc with
  | nil => rfl
  | cons a rest ih =>
    rw [List.foldl_cons, List.filterMap_cons]
    cases htr : a.2.transformed with
    | none => simp only [htr, Option.map_none']; exact ih _
    | some tr =>
      simp only [htr, Option.map_some']
      rw [List.foldl_cons]
      exact ih _

theorem buildHash_eq (items : List GridItem) (params : Params) (cw ch : ℝ) :
    buildHash items params cw ch =
      (SpatialHash.create (params.fontSize * 3) cw ch).insertAll
        (items.enum.filterMap fun p => p.2.transformed.map fun tr =>
          (p.1, tr.x, tr.y, getItemRadius p.2 params)) := by
  unfold buildHash SpatialHash.insertAll
  rw [foldl_insert_filterMap]
  rfl

theorem countP_flatMap_zero {β : Type} (p : Collision → Bool) (f : β → List Collision)
    (l : List β) (h : ∀ b ∈ l, (f b).countP p = 0) : (l.flatMap f).countP p = 0 := by
  induction l with
  | nil => rfl
  | cons a rest ih =>
    rw [List.flatMap_cons, List.countP_append, h a (List.mem_cons_self _ _),
      ih fun b hb => h b (List.mem_cons_of_mem _ hb)]

theorem countP_flatMap_single {β : Type} (p : Collision → Bool) (f : β → List Collision)
    (key : β → ℕ) (i : ℕ) (cval : ℕ) (l : List β) (hnd : (l.map key).Nodup)
    (hmem : ∃ b ∈ l, key b = i)
    (hall : ∀ b ∈ l, (f b).countP p = if key b = i then cval else 0) :
    (l.flatMap f).countP p = cval := by
  induction l with
  | nil => obtain ⟨b, hb, -⟩ := hmem; cases hb
  | cons a rest ih =>
    rw [List.flatMap_cons, List.countP_append]
    simp only [List.map_cons, List.nodup_cons] at hnd
    by_cases hk : key a = i
    · have hz : (rest.flatMap f).countP p = 0 := by
        apply countP_flatMap_zero
        intro b hb
        rw [hall b (List.mem_cons_of_mem _ hb), if_neg]
        intro hbk
        apply hnd.1
        rw [hk, ← hbk]
        exact List.mem_map_of_mem key hb
      rw [hz, hall a (List.mem_cons_self _ _), if_pos hk]
      rfl
    · rw [hall a (List.mem_cons_self _ _), if_neg hk]
      obtain ⟨b, hb, hbk⟩ := hmem
      rcases List.mem_cons.mp hb with rfl | hb'
      · exact absurd hbk hk
      · rw [ih hnd.2 ⟨b, hb', hbk⟩ fun b hb => hall b (List.mem_cons_of_mem _ hb)]
        simp

theorem countP_eq_ite_of_unique (L : List ℕ) (hnd : L.Nodup) (q : ℕ → Bool) (j : ℕ)
    (hq : ∀ a, q a = true → a = j) :
    L.countP q = if j ∈ L ∧ q j = true then 1 else 0 := by
  induction L with
  | nil => simp
  | cons a rest ih =>
    simp only [List.nodup_cons] at hnd
    by_cases ha : q a = true
    · have haj : a = j := hq a ha
      subst haj
      rw [List.countP_cons_of_pos _ _ ha]
      have hz : rest.countP q = 0 := by
        rw [List.countP_eq_zero]
        intro b hb hqb
        exact hnd.1 ((hq b hqb) ▸ hb)
      rw [hz, if_pos ⟨List.mem_cons_self _ _, ha⟩]
    · rw [List.countP_cons_of_neg _ _ ha, ih hnd.2]
      by_cases hj : j ∈ rest ∧ q j = true
      · rw [if_pos hj, if_pos ⟨List.mem_cons_of_mem _ hj.1, hj.2⟩]
      · rw [if_neg hj, if_neg]
        intro ⟨hj1, hj2⟩
        rcases List.mem_cons.mp hj1 with rfl | hj1'
        · exact ha hj2
        · exact hj ⟨hj1', hj2⟩

theorem mem_enum_of_get? {l : List GridItem} {i : ℕ} {x : GridItem}
    (h : l.get? i = some x) : (i, x) ∈ l.enum := by
  rw [List.get?_eq_getElem?, List.getElem?_eq_some_iff] at h
  obtain ⟨hi, rfl⟩ := h
  have hlen : i < l.enum.length := by simpa [List.enum_length]
  exact (List.getElem_enum l i hlen) ▸ List.getElem_mem hlen

theorem query_nodup {α : Type} [LinearOrderedField α] [FloorRing α]
    (h : SpatialHash α) (x y r : α) : (h.query x y r).Nodup := by
  unfold SpatialHash.query
  exact List.nodup_dedup _

theorem countP_walls_zero (i j : ℕ) (item : GridItem) (idx : ℕ) (params : Params)
    (cw ch : ℝ) :
    (List.countP (fun r => decide (isPairRecord i j r))
      (if params.wallBounce then checkWallCollisions item idx params cw ch else [])) = 0 := by
  rw [List.countP_eq_zero]
  intro r hr
  have hw : r.ctype = "wall" := by
    split_ifs at hr
    · exact mem_checkWallCollisions_ctype hr
    · cases hr
  simp [isPairRecord, hw]

/-- The detector emits a record for the unordered pair `{i, j}` exactly once
when the two circles overlap, and not at all otherwise. -/
theorem detector_pair_count (items : List GridItem) (params : Params) (cw ch : ℝ)
    (i j : ℕ) (itemA itemB : GridItem) (posA posB : Transform)
    (hfs : 0 < params.fontSize)
    (hA : items.get? i = some itemA) (hB : items.get? j = some itemB) (hij : i < j)
    (htA : itemA.transformed = some posA) (htB : itemB.transformed = some posB)
    (hrA : 0 ≤ getItemRadius itemA params) (hrB : 0 ≤ getItemRadius itemB params) :
    (detectCollisions items params cw ch).countP (fun r => decide (isPairRecord i j r)) =
      if ((posB.x - posA.x) * (posB.x - posA.x) + (posB.y - posA.y) * (posB.y - posA.y) <
            (getItemRadius itemA params + getItemRadius itemB params) *
              (getItemRadius itemA params + getItemRadius itemB params) ∧
          0 < (posB.x - posA.x) * (posB.x - posA.x) +
              (posB.y - posA.y) * (posB.y - posA.y))
      then 1 else 0 := by
  have hij' : i ≠ j := Nat.ne_of_lt hij
  have hAe := hA
  rw [List.get?_eq_getElem?, List.getElem?_eq_some_iff] at hAe
  obtain ⟨hilen, hAi⟩ := hAe
  simp only [detectCollisions]
  apply countP_flatMap_single _ _ Prod.fst i
  · rw [List.enum_map_fst]
    exact List.nodup_range _
  · exact ⟨(i, itemA), mem_enum_of_get? hA, rfl⟩
  · rintro ⟨i', item'⟩ hp
    obtain ⟨hp1, hp2⟩ := List.mem_enum hp
    simp only
    by_cases hpi : i' = i
    · subst hpi
      have hitem : item' = itemA := by rw [hp2, hAi]
      subst hitem
      rw [if_pos rfl]
      simp only [htA]
      rw [List.countP_append, countP_walls_zero, Nat.add_zero, List.countP_filterMap]
      have hq : ∀ a : ℕ,
          (Option.map (fun r => decide (isPairRecord i' j r))
            ((items.get? a).bind fun b => checkCircleCollision item' b i' a params)).getD
            false = true → a = j := by
        intro a ha
        cases hga : (items.get? a).bind
            (fun b => checkCircleCollision item' b i' a params) with
        | none => rw [hga] at ha; simp at ha
        | some r =>
          rw [hga] at ha
          simp only [Option.map_some', Option.getD_some, decide_eq_true_eq] at ha
          obtain ⟨itemB'', hio, hchk⟩ := Option.bind_eq_some.mp hga
          obtain ⟨hc1, hc2, hc3⟩ := checkCircleCollision_fields hchk
          rcases ha with ⟨hty, ⟨ha1, ha2⟩ | ⟨ha1, ha2⟩⟩
          · rw [hc3] at ha2
            exact Sum.inl.inj ha2
          · rw [hc2] at ha1
            exact absurd ha1 hij'
      rw [countP_eq_ite_of_unique _ ((query_nodup _ _ _ _).filter _) _ j hq]
      by_cases hov :
          (posB.x - posA.x) * (posB.x - posA.x) + (posB.y - posA.y) * (posB.y - posA.y) <
            (getItemRadius item' params + getItemRadius itemB params) *
              (getItemRadius item' params + getItemRadius itemB params) ∧
          0 < (posB.x - posA.x) * (posB.x - posA.x) +
              (posB.y - posA.y) * (posB.y - posA.y)
      · rw [if_pos hov, if_pos]
        constructor
        · -- `j` is among the filtered candidates: hash completeness
          rw [List.mem_filter]
          refine ⟨?_, by simpa using hij⟩
          rw [buildHash_eq]
          exact @query_complete ℝ _ _
            (SpatialHash.create (params.fontSize * 3) cw ch)
            (items.enum.filterMap fun p => p.2.transformed.map fun tr =>
              (p.1, tr.x, tr.y, getItemRadius p.2 params))
            posA.x posA.y (getItemRadius item' params * 2)
            (by show (0 : ℝ) < params.fontSize * 3; linarith)
            (by linarith)
            (j, posB.x, posB.y, getItemRadius itemB params)
            (List.mem_filterMap.mpr ⟨(j, itemB), mem_enum_of_get? hB, by simp [htB]⟩)
            hrB
            (by
              show (posB.x - posA.x) ^ 2 + (posB.y - posA.y) ^ 2 ≤
                (getItemRadius itemB params + getItemRadius item' params * 2) ^ 2
              rw [pow_two, pow_two, pow_two]
              nlinarith [hov.1, hrA, hrB])
        · -- the record for `j` matches the pair predicate
          rw [hB]
          simp only [Option.some_bind]
          rw [checkCircleCollision_some_of_overlap htA htB hov]
          simp only [Option.map_some', Option.getD_some]
          apply decide_eq_true
          exact ⟨rfl, Or.inl ⟨rfl, rfl⟩⟩
      · rw [if_neg hov, if_neg]
        rintro ⟨-, hqj⟩
        rw [hB] at hqj
        simp only [Option.some_bind] at hqj
        rw [checkCircleCollision_none_of_no_overlap htA htB hov] at hqj
        simp at hqj
    · rw [if_neg hpi]
      cases htr' : item'.transformed with
      | none => simp [htr']
      | some posA' =>
        simp only [htr']
        rw [List.countP_append, countP_walls_zero, Nat.add_zero, List.countP_eq_zero]
        intro r hr
        obtain ⟨j', hj', hg⟩ := List.mem_filterMap.mp hr
        obtain ⟨itemB'', hio, hchk⟩ := Option.bind_eq_some.mp hg
        obtain ⟨hc1, hc2, hc3⟩ := checkCircleCollision_fields hchk
        simp only [decide_eq_true_eq]
        rintro ⟨hty, ⟨ha1, ha2⟩ | ⟨ha1, ha2⟩⟩
        · rw [hc2] at ha1
          exact hpi ha1
        · rw [hc2] at ha1
          rw [hc3] at ha2
          have hji : j' = i := Sum.inl.inj ha2
          rw [List.mem_filter] at hj'
          have hlt : i' < j' := by simpa using hj'.2
          omega

theorem get?_of_mem_enum {l : List GridItem} {i : ℕ} {x : GridItem}
    (h : (i, x) ∈ l.enum) : l.get? i = some x := by
  obtain ⟨h1, h2⟩ := List.mem_enum h
  rw [List.get?_eq_getElem?, List.getElem?_eq_some_iff]
  exact ⟨h1, h2.symm⟩

theorem checkCircleCollision_some_normal {itemA itemB : GridItem} {iA iB : ℕ}
    {params : Params} {posA posB : Transform} {r : Collision}
    (htA : itemA.transformed = some posA) (htB : itemB.transformed = some posB)
    (h : checkCircleCollision itemA itemB iA iB params = some r) :
    0 < (posB.x - posA.x) * (posB.x - posA.x) + (posB.y - posA.y) * (posB.y - posA.y) ∧
    r.normal =
      ((posB.x - posA.x) / Real.sqrt ((posB.x - posA.x) * (posB.x - posA.x) +
          (posB.y - posA.y) * (posB.y - posA.y)),
       (posB.y - posA.y) / Real.sqrt ((posB.x - posA.x) * (posB.x - posA.x) +
          (posB.y - posA.y) * (posB.y - posA.y))) := by
  simp only [checkCircleCollision, htA, htB] at h
  split_ifs at h with hc
  obtain rfl := (Option.some.inj h).symm
  exact ⟨hc.2, rfl⟩

/-- Any record the detector emits for the unordered pair `{i, j}` (with
`i < j`) carries the unit normal pointing from item `i` to item `j`. -/
theorem detector_pair_normal (items : List GridItem) (params : Params) (cw ch : ℝ)
    (i j : ℕ) (itemA itemB : GridItem) (posA posB : Transform) (r : Collision)
    (hA : items.get? i = some itemA) (hB : items.get? j = some itemB) (hij : i < j)
    (htA : itemA.transformed = some posA) (htB : itemB.transformed = some posB)
    (hr : r ∈ detectCollisions items params cw ch) (hpr : isPairRecord i j r) :
    r.normal =
      ((posB.x - posA.x) / Real.sqrt ((posB.x - posA.x) * (posB.x - posA.x) +
          (posB.y - posA.y) * (posB.y - posA.y)),
       (posB.y - posA.y) / Real.sqrt ((posB.x - posA.x) * (posB.x - posA.x) +
          (posB.y - posA.y) * (posB.y - posA.y))) ∧
    r.normal.1 * r.normal.1 + r.normal.2 * r.normal.2 = 1 := by
  simp only [isPairRecord] at hpr
  obtain ⟨hty, hidx⟩ := hpr
  simp only [detectCollisions] at hr
  obtain ⟨⟨i', item'⟩, hp, hrp⟩ := List.mem_flatMap.mp hr
  simp only at hrp
  cases htr' : item'.transformed with
  | none => simp [htr'] at hrp
  | some posA' =>
    simp only [htr'] at hrp
    rcases List.mem_append.mp hrp with hpair | hwall
    · obtain ⟨j', hj', hg⟩ := List.mem_filterMap.mp hpair
      obtain ⟨itemB'', hio, hchk⟩ := Option.bind_eq_some.mp hg
      obtain ⟨hc1, hc2, hc3⟩ := checkCircleCollision_fields hchk
      rw [List.mem_filter] at hj'
      have hlt : i' < j' := by simpa using hj'.2
      rcases hidx with ⟨ha1, ha2⟩ | ⟨ha1, ha2⟩
      · have hii : i' = i := hc2.symm.trans ha1
        have hjj : j' = j := Sum.inl.inj (hc3.symm.trans ha2)
        have hgi : items.get? i = some item' := by
          rw [← hii]; exact get?_of_mem_enum hp
        have hitem : item' = itemA := Option.some.inj (hgi.symm.trans hA)
        have hgj : items.get? j = some itemB'' := by rw [← hjj]; exact hio
        have hitemB : itemB'' = itemB := Option.some.inj (hgj.symm.trans hB)
        rw [hitem, hitemB] at hchk
        obtain ⟨hpos, hnorm⟩ := checkCircleCollision_some_normal htA htB hchk
        refine ⟨hnorm, ?_⟩
        have hs : Real.sqrt ((posB.x - posA.x) * (posB.x - posA.x) +
              (posB.y - posA.y) * (posB.y - posA.y)) *
            Real.sqrt ((posB.x - posA.x) * (posB.x - posA.x) +
              (posB.y - posA.y) * (posB.y - posA.y)) =
            (posB.x - posA.x) * (posB.x - posA.x) + (posB.y - posA.y) * (posB.y - posA.y) :=
          Real.mul_self_sqrt hpos.le
        have hn1 : r.normal.1 =
            (posB.x - posA.x) / Real.sqrt ((posB.x - posA.x) * (posB.x - posA.x) +
              (posB.y - posA.y) * (posB.y - posA.y)) := by rw [hnorm]
        have hn2 : r.normal.2 =
            (posB.y - posA.y) / Real.sqrt ((posB.x - posA.x) * (posB.x - posA.x) +
              (posB.y - posA.y) * (posB.y - posA.y)) := by rw [hnorm]
        rw [hn1, hn2, div_mul_div_comm, div_mul_div_comm, div_add_div_same, hs]
        exact div_self (ne_of_gt hpos)
      · have hij2 : i' = j := hc2.symm.trans ha1
        have hji2 : j' = i := Sum.inl.inj (hc3.symm.trans ha2)
        omega
    · exfalso
      have hw : r.ctype = "wall" := by
        revert hwall
        split_ifs
        · exact fun hwall => mem_checkWallCollisions_ctype hwall
        · intro hwall; cases hwall
      rw [hty] at hw
      exact absurd hw (by decide)

/-- C7: the collision pipeline is symmetric on an item pair.  (1) When the
resolver processes an item-item collision record (here from blank states, so
both guarded writes land), the state written for item B stores exactly the
component-wise negation of the normal stored for item A for that same
collision, and A's stored normal is the record's normal.  (2) The detector
emits a record for the unordered pair `{i, j}` exactly once, namely exactly
when the two transformed circles overlap at positive squared distance.
(3) Every record emitted for the pair carries the unit normal pointing from
item `i` (A) to item `j` (B). -/
theorem c7_collision_symmetry (items : List GridItem) (params : Params) (cw ch : ℝ)
    (i j : ℕ) (itemA itemB : GridItem) (posA posB : Transform)
    (hfs : 0 < params.fontSize)
    (hA : items.get? i = some itemA) (hB : items.get? j = some itemB) (hij : i < j)
    (htA : itemA.transformed = some posA) (htB : itemB.transformed = some posB)
    (hrA : 0 ≤ getItemRadius itemA params) (hrB : 0 ≤ getItemRadius itemB params) :
    (∀ (m : StateMap) (time : ℝ) (a b : ℕ) (n : ℝ × ℝ) (pen : ℝ) (cp : ℝ × ℝ),
       a ≠ b → getState m a = none → getState m b = none →
       ∃ stA stB,
         getState (startCollisionResponse m
             { ctype := "item", indexA := a, indexB := Sum.inl b, normal := n,
               penetration := pen, contactPoint := cp } time params) a = some stA ∧
         getState (startCollisionResponse m
             { ctype := "item", indexA := a, indexB := Sum.inl b, normal := n,
               penetration := pen, contactPoint := cp } time params) b = some stB ∧
         stA.normal = n ∧ stB.normal = (-stA.normal.1, -stA.normal.2)) ∧
    ((detectCollisions items params cw ch).countP (fun r => decide (isPairRecord i j r)) =
       if ((posB.x - posA.x) * (posB.x - posA.x) + (posB.y - posA.y) * (posB.y - posA.y) <
             (getItemRadius itemA params + getItemRadius itemB params) *
               (getItemRadius itemA params + getItemRadius itemB params) ∧
           0 < (posB.x - posA.x) * (posB.x - posA.x) +
               (posB.y - posA.y) * (posB.y - posA.y))
       then 1 else 0) ∧
    (∀ r ∈ detectCollisions items params cw ch, isPairRecord i j r →
       r.normal =
         ((posB.x - posA.x) / Real.sqrt ((posB.x - posA.x) * (posB.x - posA.x) +
             (posB.y - posA.y) * (posB.y - posA.y)),
          (posB.y - posA.y) / Real.sqrt ((posB.x - posA.x) * (posB.x - posA.x) +
             (posB.y - posA.y) * (posB.y - posA.y))) ∧
       r.normal.1 * r.normal.1 + r.normal.2 * r.normal.2 = 1) := by
  refine ⟨?_, detector_pair_count items params cw ch i j itemA itemB posA posB hfs hA hB hij
      htA htB hrA hrB, ?_⟩
  · intro m time a b n pen cp hab hma hmb
    have hdef : startCollisionResponse m
        { ctype := "item", indexA := a, indexB := Sum.inl b, normal := n,
          penetration := pen, contactPoint := cp } time params =
        startHalf (startHalf m a n (Sum.inl b) pen time params "item") b
          (-n.1, -n.2) (Sum.inl a) pen time params "item" := rfl
    have h1 : startHalf m a n (Sum.inl b) pen time params "item" =
        setState m a (freshState n (Sum.inl b) pen time params "item") := by
      simp only [startHalf, hma]
    have hm1b : getState (setState m a
        (freshState n (Sum.inl b) pen time params "item")) b = none := by
      rw [getState_setState_ne _ _ hab]
      exact hmb
    have h2 : startHalf (setState m a
          (freshState n (Sum.inl b) pen time params "item")) b
          (-n.1, -n.2) (Sum.inl a) pen time params "item" =
        setState (setState m a (freshState n (Sum.inl b) pen time params "item")) b
          (freshState (-n.1, -n.2) (Sum.inl a) pen time params "item") := by
      simp only [startHalf, hm1b]
    refine ⟨freshState n (Sum.inl b) pen time params "item",
        freshState (-n.1, -n.2) (Sum.inl a) pen time params "item", ?_, ?_, rfl, rfl⟩
    · rw [hdef, h1, h2, getState_setState_ne _ _ (Ne.symm hab)]
      exact getState_setState_self m a _
    · rw [hdef, h1, h2]
      exact getState_setState_self _ b _
  · intro r hr hpr
    exact detector_pair_normal items params cw ch i j itemA itemB posA posB r hA hB hij
      htA htB hr hpr

/-- Witness for C7 at concrete data: two items of radius 3 at distance 5,
which overlap, so the detector emits their pair record exactly once. -/
theorem c7_witness :
    (detectCollisions [c7ItemA, c7ItemB] c7Params 100 100).countP
        (fun r => decide (isPairRecord 0 1 r)) = 1 := by
  have hradA : getItemRadius c7ItemA c7Params = 3 := by
    norm_num [getItemRadius, c7ItemA, c7Params, sampleParams, sampleItem,
      transformedScaleOr1, c7PosA, jsOr]
  have hradB : getItemRadius c7ItemB c7Params = 3 := by
    norm_num [getItemRadius, c7ItemB, c7Params, sampleParams, sampleItem,
      transformedScaleOr1, c7PosB, jsOr]
  have h := c7_collision_symmetry [c7ItemA, c7ItemB] c7Params 100 100 0 1 c7ItemA c7ItemB
      c7PosA c7PosB (by norm_num [c7Params, sampleParams]) rfl rfl (by norm_num)
      rfl rfl (by rw [hradA]; norm_num) (by rw [hradB]; norm_num)
  have hcond :
      ((c7PosB.x - c7PosA.x) * (c7PosB.x - c7PosA.x) +
          (c7PosB.y - c7PosA.y) * (c7PosB.y - c7PosA.y) <
        (getItemRadius c7ItemA c7Params + getItemRadius c7ItemB c7Params) *
          (getItemRadius c7ItemA c7Params + getItemRadius c7ItemB c7Params) ∧
       0 < (c7PosB.x - c7PosA.x) * (c7PosB.x - c7PosA.x) +
          (c7PosB.y - c7PosA.y) * (c7PosB.y - c7PosA.y)) := by
    rw [hradA, hradB]
    norm_num [c7PosA, c7PosB]
  rw [h.2.1, if_pos hcond]

end WaveType
